import Mathlib

/-!
# A shallow embedding of the oneShot interpreter

This file embeds the core of the oneShot language implementation (the
interpreter contained in the repository's main JavaScript file: scanner,
expression parser, environment chain, tree-walking evaluator, and the
note-sequencing `Sheet.build` routine) into Lean, and proves the
specification claims about it.

Modelling conventions:
* JavaScript numbers are modelled as exact rationals (`ℚ`).  Every claim
  verified here only exercises arithmetic that is exact in IEEE doubles,
  so the models agree on those runs.  `NaN`/`Infinity`-producing paths
  (for example `Number("a")`, or division by zero) are modelled as noted
  at each definition; no claim exercises them.
* JavaScript `null` and `undefined` are both modelled as `Value.vNull`
  where they flow into oneShot values; fields that are `undefined` until
  assigned (such as a sprite's declared size) are modelled as `Option`.
* A thrown JavaScript exception (both explicit `throw new Error(...)` and
  implicit `TypeError`s from dereferencing `null`/`undefined`) is modelled
  as `Except.error`; every error aborts the run, matching the
  propagation policy of the implementation.
* The environment chain is modelled as an arena of scope records with
  parent indices; the interpreter only ever creates a child scope with a
  parent that is already in the arena, so parents always have smaller
  indices, which the chain-walking functions use for termination.
* External backends (canvas rendering, audio, input, timers) are modelled
  behaviourally: the rendering context records its fill style and the
  list of issued draw calls; input and entropy are snapshots/streams in
  the state.  Concurrent audio playback started by PLAY is fire-and-forget
  in the source and is recorded as an event, not simulated.
-/

/- Rational arithmetic must evaluate inside `decide`/`rfl` proofs about
concrete runs, so the sealed Batteries definitions are made semireducible
for this file. -/
attribute [local semireducible] Rat.add Rat.mul Rat.sub Rat.inv

/-- Decidable equality of `Except` results, used to settle concrete runs
by `decide`. -/
instance {ε α : Type} [DecidableEq ε] [DecidableEq α] : DecidableEq (Except ε α) := fun a b =>
  match a, b with
  | .ok x, .ok y => if h : x = y then isTrue (by rw [h]) else isFalse (by simp [h])
  | .error x, .error y => if h : x = y then isTrue (by rw [h]) else isFalse (by simp [h])
  | .ok _, .error _ => isFalse (by simp)
  | .error _, .ok _ => isFalse (by simp)

namespace OneShotModel

/-- Runtime values of the oneShot language: JS numbers, strings, booleans
and `null`/`undefined`. -/
inductive Value where
  | vNum (q : ℚ)
  | vStr (s : String)
  | vBool (b : Bool)
  | vNull
deriving DecidableEq, Repr

open Value

/-- `isTruthy` from the source: `null` (and `undefined`) are falsy, a
boolean is itself, everything else is truthy. -/
def isTruthy : Value → Bool
  | vNull => false
  | vBool b => b
  | _ => true

/-- Decimal digits of a natural number (most significant first). -/
def natDigits (n : Nat) : List Char :=
  (toString n).data

/-- Fractional decimal digits of `q` (with `0 ≤ q < 1`), up to `k` digits,
by long division; stops early when the remainder is zero. -/
def fracDigits (k : Nat) (num den : Nat) : List Char :=
  match k with
  | 0 => []
  | k + 1 =>
    if num = 0 then []
    else
      let d := (10 * num) / den
      let r := (10 * num) % den
      Char.ofNat (48 + d) :: fracDigits k r den

/-- JS number-to-string conversion, modelled exactly for integers (the
only cases the verified claims exercise) and by a 17-digit decimal
expansion otherwise (JS prints the shortest round-tripping decimal of the
IEEE double; doubles are not modelled). -/
def ratToString (q : ℚ) : String :=
  if q.den = 1 then toString q.num
  else
    let sign := if q.num < 0 then "-" else ""
    let n := q.num.natAbs
    sign ++ toString (n / q.den) ++ "." ++ String.mk (fracDigits 17 (n % q.den) q.den)

/-- JS `String(v)` / template-literal coercion of a oneShot value. -/
def jsToString : Value → String
  | vNum q => ratToString q
  | vStr s => s
  | vBool b => if b then "true" else "false"
  | vNull => "null"

/-- JS whitespace as used by `String.trim` (ASCII subset; the bar text
of oneShot programs is ASCII). -/
def jsWs (c : Char) : Bool :=
  c = ' ' || c = '\t' || c = '\n' || c = '\r' || c = '\x0b' || c = '\x0c'

/-- `String.trim` on both ends, at character level. -/
def charTrim (cs : List Char) : List Char :=
  ((cs.dropWhile jsWs).reverse.dropWhile jsWs).reverse

/-- Parse a string as a JS numeric literal for `Number(...)` coercion:
optional sign, digits, optional fraction.  Returns `none` where JS would
produce `NaN` (not modelled; no claim exercises it). -/
def parseNumeric (s : String) : Option ℚ :=
  let t := charTrim s.data
  if t = [] then some 0
  else
    let (neg, u) :=
      match t with
      | '-' :: rest => (true, rest)
      | '+' :: rest => (false, rest)
      | l => (false, l)
    let intPart := u.takeWhile Char.isDigit
    let rest := u.dropWhile Char.isDigit
    let (fracPart, rest') :=
      match rest with
      | '.' :: r => (r.takeWhile Char.isDigit, r.dropWhile Char.isDigit)
      | r => ([], r)
    if rest' ≠ [] then none
    else if intPart = [] ∧ fracPart = [] then none
    else
      let iv : ℚ := (intPart.foldl (fun a c => 10 * a + (c.toNat - 48)) 0 : Nat)
      let fv : ℚ := (fracPart.foldl (fun a c => 10 * a + (c.toNat - 48)) 0 : Nat)
      let q := iv + fv / ((10 : ℚ) ^ fracPart.length)
      some (if neg then -q else q)

/-- JS `Number(v)` / `ToNumber` coercion on a oneShot value; `none` stands
for `NaN` (not modelled; no claim exercises it).  JS `null` converts to
`0`. -/
def jsNumberOf : Value → Option ℚ
  | vNum q => some q
  | vBool b => some (if b then 1 else 0)
  | vNull => some 0
  | vStr s => parseNumeric s

/-- Token kinds, in source order (`TokenType`). -/
inductive TokenType where
  | LEFT_P | RIGHT_P | COLON | COMMA | MINUS | PLUS | SLASH | STAR | HASHTAG
  | NOT | NOT_EQUAL | EQUAL | EQUAL_EQUAL
  | GREATER | GREATER_EQUAL | LESS | LESS_EQUAL
  | IDENTIFIER | STRING | NUMBER
  | AND | OR | TRUE | FALSE
  | IF | ELSE | FOR | WHILE | END | THEN
  | LET | FUN | NULL | ALL | MOUSEX | MOUSEY
  | DEBUG | PRINT | WINDOW | COLOR | FILL | TEXT | SLEEP | DRAW | RANDOM
  | INPUT | INT | MIN | MAX | ABS | FLOOR | CEIL | LERP
  | SPRITE | SIZE | FRAME | COLORDATA | PIXELDATA
  | SONG | SHEET | BAR | GAIN | BPM | LOOP | TYPE | PLAY | STOP
  | EOF
deriving DecidableEq, Repr

/-- A scanned token (`Token`): kind, lexeme text, optional literal value,
source line. -/
structure Token where
  type : TokenType
  lexeme : String
  literal : Option Value
  line : Nat
deriving DecidableEq, Repr

/-- The scanner's keyword table.  The source table also maps `UPDATE` to
`TokenType.UPDATE`, but no such token type exists, so the lookup yields
`undefined` and `UPDATE` falls back to an identifier; it is therefore
absent here. -/
def keywordType : String → Option TokenType
  | "AND" => some .AND
  | "OR" => some .OR
  | "TRUE" => some .TRUE
  | "FALSE" => some .FALSE
  | "IF" => some .IF
  | "ELSE" => some .ELSE
  | "FOR" => some .FOR
  | "WHILE" => some .WHILE
  | "END" => some .END
  | "THEN" => some .THEN
  | "LET" => some .LET
  | "FUN" => some .FUN
  | "NULL" => some .NULL
  | "ALL" => some .ALL
  | "MOUSEX" => some .MOUSEX
  | "MOUSEY" => some .MOUSEY
  | "DEBUG" => some .DEBUG
  | "PRINT" => some .PRINT
  | "WINDOW" => some .WINDOW
  | "COLOR" => some .COLOR
  | "FILL" => some .FILL
  | "TEXT" => some .TEXT
  | "SLEEP" => some .SLEEP
  | "SPRITE" => some .SPRITE
  | "SIZE" => some .SIZE
  | "DRAW" => some .DRAW
  | "RANDOM" => some .RANDOM
  | "INPUT" => some .INPUT
  | "INT" => some .INT
  | "MIN" => some .MIN
  | "MAX" => some .MAX
  | "ABS" => some .ABS
  | "FLOOR" => some .FLOOR
  | "CEIL" => some .CEIL
  | "LERP" => some .LERP
  | "FRAME" => some .FRAME
  | "COLORDATA" => some .COLORDATA
  | "PIXELDATA" => some .PIXELDATA
  | "SONG" => some .SONG
  | "SHEET" => some .SHEET
  | "BAR" => some .BAR
  | "GAIN" => some .GAIN
  | "BPM" => some .BPM
  | "LOOP" => some .LOOP
  | "TYPE" => some .TYPE
  | "PLAY" => some .PLAY
  | "STOP" => some .STOP
  | _ => none

/-- `Scanner.#isDigit`. -/
def isDigitC (c : Char) : Bool := '0' ≤ c && c ≤ '9'

/-- `Scanner.#isAlpha`. -/
def isAlphaC (c : Char) : Bool :=
  ('a' ≤ c && c ≤ 'z') || ('A' ≤ c && c ≤ 'Z') || c = '_'

/-- `Scanner.#isAlphaNumberic` (sic). -/
def isAlphaNumC (c : Char) : Bool := isAlphaC c || isDigitC c

/-- Numeric literal value of scanned digits: integer digits and optional
fractional digits, as an exact rational (`parseFloat` on such a literal
returns the nearest double; the claims only use literals where the two
agree). -/
def numberValue (intDs fracDs : List Char) : ℚ :=
  let iv : ℚ := (intDs.foldl (fun a c => 10 * a + (c.toNat - 48)) 0 : Nat)
  let fv : ℚ := (fracDs.foldl (fun a c => 10 * a + (c.toNat - 48)) 0 : Nat)
  iv + fv / ((10 : ℚ) ^ fracDs.length)

/-- One step of `Scanner.scanTokens`: fuel-driven loop over the remaining
characters; each iteration consumes at least one character, so
`length + 1` fuel always suffices.  Mirrors `Scanner.#scanToken` case by
case. -/
def scanAux : Nat → List Char → Nat → Except String (List Token)
  | 0, _, _ => .error "scanner out of fuel"
  | _ + 1, [], line => .ok [⟨.EOF, "", none, line⟩]
  | fuel + 1, c :: cs, line =>
    let tok := fun (t : TokenType) (lx : String) (lit : Option Value) =>
      (⟨t, lx, lit, line⟩ : Token)
    let push := fun (t : Token) (rest : List Char) (ln : Nat) =>
      (scanAux fuel rest ln).map (fun ts => t :: ts)
    match c with
    | '(' => push (tok .LEFT_P "(" none) cs line
    | ')' => push (tok .RIGHT_P ")" none) cs line
    | ':' => push (tok .COLON ":" none) cs line
    | ',' => push (tok .COMMA "," none) cs line
    | '-' => push (tok .MINUS "-" none) cs line
    | '+' => push (tok .PLUS "+" none) cs line
    | '/' => push (tok .SLASH "/" none) cs line
    | '*' => push (tok .STAR "*" none) cs line
    | '!' => push (tok .NOT "!" none) cs line
    | '=' =>
      match cs with
      | '=' :: cs' => push (tok .EQUAL_EQUAL "==" none) cs' line
      | _ => push (tok .EQUAL "=" none) cs line
    | '>' =>
      match cs with
      | '=' :: cs' => push (tok .GREATER_EQUAL ">=" none) cs' line
      | _ => push (tok .GREATER ">" none) cs line
    | '<' =>
      match cs with
      | '=' :: cs' => push (tok .LESS_EQUAL "<=" none) cs' line
      | '>' :: cs' => push (tok .NOT_EQUAL "<>" none) cs' line
      | _ => push (tok .LESS "<" none) cs line
    | '#' => scanAux fuel (cs.dropWhile (fun ch => ch ≠ '\n')) line
    | ' ' => scanAux fuel cs line
    | '\r' => scanAux fuel cs line
    | '\t' => scanAux fuel cs line
    | '\n' => scanAux fuel cs (line + 1)
    | '"' =>
      let content := cs.takeWhile (fun ch => ch ≠ '"')
      let rest := cs.dropWhile (fun ch => ch ≠ '"')
      match rest with
      | [] => .error ("[Line " ++ toString line ++ "]: Unterminated string")
      | _ :: rest' =>
        push (tok .STRING ("\"" ++ String.mk content ++ "\"")
          (some (vStr (String.mk content)))) rest' line
    | _ =>
      if isDigitC c then
        let intDs := c :: cs.takeWhile isDigitC
        let afterInt := cs.dropWhile isDigitC
        match afterInt with
        | '.' :: d :: rest' =>
          if isDigitC d then
            let fracDs := d :: rest'.takeWhile isDigitC
            let afterFrac := rest'.dropWhile isDigitC
            push (tok .NUMBER (String.mk (intDs ++ '.' :: fracDs))
              (some (vNum (numberValue intDs fracDs)))) afterFrac line
          else
            push (tok .NUMBER (String.mk intDs)
              (some (vNum (numberValue intDs [])))) afterInt line
        | _ =>
          push (tok .NUMBER (String.mk intDs)
            (some (vNum (numberValue intDs [])))) afterInt line
      else if isAlphaC c then
        let text := String.mk (c :: cs.takeWhile isAlphaNumC)
        let rest := cs.dropWhile isAlphaNumC
        let ty := match keywordType text with
          | some t => t
          | none => TokenType.IDENTIFIER
        push (tok ty text none) rest line
      else
        .error ("[Line " ++ toString line ++ "]: Unexpected character.")

/-- `Scanner.scanTokens` on a source string. -/
def scanTokens (source : String) : Except String (List Token) :=
  scanAux (source.length + 1) source.data 1

/-- Expression nodes.  Each constructor corresponds to one `Expression`
subclass of the source; operator tokens are kept as their token type
(interpretation only inspects `operator.type`), and variable names as the
token's lexeme. -/
inductive Expr where
  | literal (v : Value)
  | grouping (e : Expr)
  | unary (op : TokenType) (right : Expr)
  | binary (left : Expr) (op : TokenType) (right : Expr)
  | logical (left : Expr) (op : TokenType) (right : Expr)
  | assign (name : String) (value : Expr)
  | var (name : String)
  | random
  | input (key : Expr)
  | int (e : Expr)
  | min (a b : Expr)
  | max (a b : Expr)
  | abs (e : Expr)
  | floor (e : Expr)
  | ceil (e : Expr)
  | lerp (a b t : Expr)
  | mouseX
  | mouseY
deriving DecidableEq, Repr

/-- `Parser.#check`: true when the next token has the wanted type (never
at the end marker). -/
def checkTok (ts : List Token) (ty : TokenType) : Bool :=
  match ts with
  | [] => false
  | t :: _ => if t.type = .EOF then false else t.type = ty

/-- `Parser.#peek` (the scanner guarantees a token is present). -/
def peekTok (ts : List Token) : Except String Token :=
  match ts with
  | [] => .error "TypeError: no current token"
  | t :: _ => .ok t

/-- `Parser.#consume`: require a token type or fail with the message. -/
def consumeTok (ts : List Token) (ty : TokenType) (msg : String) :
    Except String (Token × List Token) :=
  match ts with
  | [] => .error "TypeError: no current token"
  | t :: rest =>
    if t.type ≠ .EOF ∧ t.type = ty then .ok (t, rest) else .error msg

/-- Result of one parsing routine: the node and the remaining tokens. -/
abbrev PRes := Except String (Expr × List Token)

mutual

/-- `Parser.#expression`. -/
def pExpression : Nat → List Token → PRes
  | 0, _ => .error "parser out of fuel"
  | fuel + 1, ts => pAssignment fuel ts

/-- `Parser.#assignment`: parse an or-level expression, then on `=`
recurse (right associative) and require the left side to be a variable
reference. -/
def pAssignment : Nat → List Token → PRes
  | 0, _ => .error "parser out of fuel"
  | fuel + 1, ts => do
    let (e, ts1) ← pOr fuel ts
    if checkTok ts1 .EQUAL then do
      let (v, ts2) ← pAssignment fuel ts1.tail
      match e with
      | .var name => .ok (.assign name v, ts2)
      | _ => .error "Invalid assignment target"
    else
      .ok (e, ts1)

/-- `Parser.#or`. -/
def pOr : Nat → List Token → PRes
  | 0, _ => .error "parser out of fuel"
  | fuel + 1, ts => do
    let (e, ts1) ← pAnd fuel ts
    pOrLoop fuel e ts1

/-- The `while (match OR)` loop of `Parser.#or`. -/
def pOrLoop : Nat → Expr → List Token → PRes
  | 0, _, _ => .error "parser out of fuel"
  | fuel + 1, e, ts =>
    if checkTok ts .OR then do
      let (r, ts1) ← pAnd fuel ts.tail
      pOrLoop fuel (.logical e .OR r) ts1
    else
      .ok (e, ts)

/-- `Parser.#and`. -/
def pAnd : Nat → List Token → PRes
  | 0, _ => .error "parser out of fuel"
  | fuel + 1, ts => do
    let (e, ts1) ← pEquality fuel ts
    pAndLoop fuel e ts1

/-- The `while (match AND)` loop of `Parser.#and`. -/
def pAndLoop : Nat → Expr → List Token → PRes
  | 0, _, _ => .error "parser out of fuel"
  | fuel + 1, e, ts =>
    if checkTok ts .AND then do
      let (r, ts1) ← pEquality fuel ts.tail
      pAndLoop fuel (.logical e .AND r) ts1
    else
      .ok (e, ts)

/-- `Parser.#equality`. -/
def pEquality : Nat → List Token → PRes
  | 0, _ => .error "parser out of fuel"
  | fuel + 1, ts => do
    let (e, ts1) ← pComparison fuel ts
    pEqualityLoop fuel e ts1

/-- The `while (match NOT_EQUAL, EQUAL_EQUAL)` loop of `Parser.#equality`. -/
def pEqualityLoop : Nat → Expr → List Token → PRes
  | 0, _, _ => .error "parser out of fuel"
  | fuel + 1, e, ts =>
    if checkTok ts .NOT_EQUAL then do
      let (r, ts1) ← pComparison fuel ts.tail
      pEqualityLoop fuel (.binary e .NOT_EQUAL r) ts1
    else if checkTok ts .EQUAL_EQUAL then do
      let (r, ts1) ← pComparison fuel ts.tail
      pEqualityLoop fuel (.binary e .EQUAL_EQUAL r) ts1
    else
      .ok (e, ts)

/-- `Parser.#comparison`. -/
def pComparison : Nat → List Token → PRes
  | 0, _ => .error "parser out of fuel"
  | fuel + 1, ts => do
    let (e, ts1) ← pTerm fuel ts
    pComparisonLoop fuel e ts1

/-- The comparison-operator loop of `Parser.#comparison`. -/
def pComparisonLoop : Nat → Expr → List Token → PRes
  | 0, _, _ => .error "parser out of fuel"
  | fuel + 1, e, ts =>
    if checkTok ts .GREATER then do
      let (r, ts1) ← pTerm fuel ts.tail
      pComparisonLoop fuel (.binary e .GREATER r) ts1
    else if checkTok ts .GREATER_EQUAL then do
      let (r, ts1) ← pTerm fuel ts.tail
      pComparisonLoop fuel (.binary e .GREATER_EQUAL r) ts1
    else if checkTok ts .LESS then do
      let (r, ts1) ← pTerm fuel ts.tail
      pComparisonLoop fuel (.binary e .LESS r) ts1
    else if checkTok ts .LESS_EQUAL then do
      let (r, ts1) ← pTerm fuel ts.tail
      pComparisonLoop fuel (.binary e .LESS_EQUAL r) ts1
    else
      .ok (e, ts)

/-- `Parser.#term`. -/
def pTerm : Nat → List Token → PRes
  | 0, _ => .error "parser out of fuel"
  | fuel + 1, ts => do
    let (e, ts1) ← pFactor fuel ts
    pTermLoop fuel e ts1

/-- The `while (match MINUS, PLUS)` loop of `Parser.#term`. -/
def pTermLoop : Nat → Expr → List Token → PRes
  | 0, _, _ => .error "parser out of fuel"
  | fuel + 1, e, ts =>
    if checkTok ts .MINUS then do
      let (r, ts1) ← pFactor fuel ts.tail
      pTermLoop fuel (.binary e .MINUS r) ts1
    else if checkTok ts .PLUS then do
      let (r, ts1) ← pFactor fuel ts.tail
      pTermLoop fuel (.binary e .PLUS r) ts1
    else
      .ok (e, ts)

/-- `Parser.#factor`. -/
def pFactor : Nat → List Token → PRes
  | 0, _ => .error "parser out of fuel"
  | fuel + 1, ts => do
    let (e, ts1) ← pUnary fuel ts
    pFactorLoop fuel e ts1

/-- The `while (match SLASH, STAR)` loop of `Parser.#factor`. -/
def pFactorLoop : Nat → Expr → List Token → PRes
  | 0, _, _ => .error "parser out of fuel"
  | fuel + 1, e, ts =>
    if checkTok ts .SLASH then do
      let (r, ts1) ← pUnary fuel ts.tail
      pFactorLoop fuel (.binary e .SLASH r) ts1
    else if checkTok ts .STAR then do
      let (r, ts1) ← pUnary fuel ts.tail
      pFactorLoop fuel (.binary e .STAR r) ts1
    else
      .ok (e, ts)

/-- `Parser.#unary`. -/
def pUnary : Nat → List Token → PRes
  | 0, _ => .error "parser out of fuel"
  | fuel + 1, ts =>
    if checkTok ts .NOT then do
      let (r, ts1) ← pUnary fuel ts.tail
      .ok (.unary .NOT r, ts1)
    else if checkTok ts .MINUS then do
      let (r, ts1) ← pUnary fuel ts.tail
      .ok (.unary .MINUS r, ts1)
    else
      pPrimary fuel ts

/-- `Parser.#primary`: literals, grouping, variables, and the built-in
call forms with their fixed argument lists. -/
def pPrimary : Nat → List Token → PRes
  | 0, _ => .error "parser out of fuel"
  | fuel + 1, ts => do
    let missingParen := fun (ts' : List Token) =>
      match ts' with
      | t :: _ => "[Line " ++ toString t.line ++ "]: Missing enclosing parenthesis"
      | [] => "[Line ?]: Missing enclosing parenthesis"
    let missingComma := fun (ts' : List Token) =>
      match ts' with
      | t :: _ => "[Line " ++ toString t.line ++ "]: Missing comma"
      | [] => "[Line ?]: Missing comma"
    if checkTok ts .FALSE then .ok (.literal (vBool false), ts.tail)
    else if checkTok ts .TRUE then .ok (.literal (vBool true), ts.tail)
    else if checkTok ts .NULL then .ok (.literal vNull, ts.tail)
    else if checkTok ts .STRING ∨ checkTok ts .NUMBER then do
      let t ← peekTok ts
      match t.literal with
      | some v => .ok (.literal v, ts.tail)
      | none => .ok (.literal vNull, ts.tail)
    else if checkTok ts .IDENTIFIER then do
      let t ← peekTok ts
      .ok (.var t.lexeme, ts.tail)
    else if checkTok ts .LEFT_P then do
      let (e, ts1) ← pExpression fuel ts.tail
      let (_, ts2) ← consumeTok ts1 .RIGHT_P (missingParen ts1)
      .ok (.grouping e, ts2)
    else if checkTok ts .RANDOM then do
      let (_, ts1) ← consumeTok ts.tail .LEFT_P (missingParen ts.tail)
      let (_, ts2) ← consumeTok ts1 .RIGHT_P (missingParen ts1)
      .ok (.random, ts2)
    else if checkTok ts .INPUT then do
      let (_, ts1) ← consumeTok ts.tail .LEFT_P (missingParen ts.tail)
      let (k, ts2) ← pExpression fuel ts1
      let (_, ts3) ← consumeTok ts2 .RIGHT_P (missingParen ts2)
      .ok (.input k, ts3)
    else if checkTok ts .INT then do
      let (_, ts1) ← consumeTok ts.tail .LEFT_P (missingParen ts.tail)
      let (n, ts2) ← pExpression fuel ts1
      let (_, ts3) ← consumeTok ts2 .RIGHT_P (missingParen ts2)
      .ok (.int n, ts3)
    else if checkTok ts .MIN then do
      let (_, ts1) ← consumeTok ts.tail .LEFT_P (missingParen ts.tail)
      let (a, ts2) ← pExpression fuel ts1
      let (_, ts3) ← consumeTok ts2 .COMMA (missingComma ts2)
      let (b, ts4) ← pExpression fuel ts3
      let (_, ts5) ← consumeTok ts4 .RIGHT_P (missingParen ts4)
      .ok (.min a b, ts5)
    else if checkTok ts .MAX then do
      let (_, ts1) ← consumeTok ts.tail .LEFT_P (missingParen ts.tail)
      let (a, ts2) ← pExpression fuel ts1
      let (_, ts3) ← consumeTok ts2 .COMMA (missingComma ts2)
      let (b, ts4) ← pExpression fuel ts3
      let (_, ts5) ← consumeTok ts4 .RIGHT_P (missingParen ts4)
      .ok (.max a b, ts5)
    else if checkTok ts .ABS then do
      let (_, ts1) ← consumeTok ts.tail .LEFT_P (missingParen ts.tail)
      let (n, ts2) ← pExpression fuel ts1
      let (_, ts3) ← consumeTok ts2 .RIGHT_P (missingParen ts2)
      .ok (.abs n, ts3)
    else if checkTok ts .FLOOR then do
      let (_, ts1) ← consumeTok ts.tail .LEFT_P (missingParen ts.tail)
      let (n, ts2) ← pExpression fuel ts1
      let (_, ts3) ← consumeTok ts2 .RIGHT_P (missingParen ts2)
      .ok (.floor n, ts3)
    else if checkTok ts .CEIL then do
      let (_, ts1) ← consumeTok ts.tail .LEFT_P (missingParen ts.tail)
      let (n, ts2) ← pExpression fuel ts1
      let (_, ts3) ← consumeTok ts2 .RIGHT_P (missingParen ts2)
      .ok (.ceil n, ts3)
    else if checkTok ts .LERP then do
      let (_, ts1) ← consumeTok ts.tail .LEFT_P (missingParen ts.tail)
      let (a, ts2) ← pExpression fuel ts1
      let (_, ts3) ← consumeTok ts2 .COMMA (missingComma ts2)
      let (b, ts4) ← pExpression fuel ts3
      let (_, ts5) ← consumeTok ts4 .COMMA (missingComma ts4)
      let (t, ts6) ← pExpression fuel ts5
      let (_, ts7) ← consumeTok ts6 .RIGHT_P (missingParen ts6)
      .ok (.lerp a b t, ts7)
    else if checkTok ts .MOUSEX then .ok (.mouseX, ts.tail)
    else if checkTok ts .MOUSEY then .ok (.mouseY, ts.tail)
    else
      match ts with
      | t :: _ => .error ("[Line " ++ toString t.line ++ "]: Missing expression")
      | [] => .error "TypeError: no current token"

end

/-! ## Runtime data model -/

/-- One entry of a sheet's note list (`Note`): `note` is the pitch
text (`none` models the `undefined` pitch of a rest created by `--`),
`length` the duration multiplier. -/
structure NoteObj where
  note : Option String
  length : Nat
deriving DecidableEq, Repr

/-- `Sheet`: raw bar text, derived notes, gain, waveform type, envelope
times, playing flag, and the index assigned by `Song.addSheet`.  `gain`
and `type` store the raw evaluated values the statements assign. -/
structure SheetObj where
  index : Int
  bars : String
  notes : List NoteObj
  gain : Value
  type : Value
  attack : ℚ
  release : ℚ
  playing : Bool
deriving DecidableEq, Repr

/-- A fresh sheet (`new Sheet(song)` defaults). -/
def newSheet (index : Int) : SheetObj :=
  { index := index, bars := "", notes := [], gain := vNum (4/5),
    type := vStr "sine", attack := 2, release := 20, playing := false }

/-- `Song`: sheets, beats per minute (raw assigned value, default 120)
and loop flag.  The `GainNode` audio plumbing the class inherits is part
of the external audio backend and not modelled. -/
structure SongObj where
  sheets : List SheetObj
  bpm : Value
  loop : Bool
deriving DecidableEq, Repr

/-- A fresh song (`new Song(ctx)` defaults). -/
def newSong : SongObj := { sheets := [], bpm := vNum 120, loop := false }

/-- `Song.currentSheet`: the last sheet, or `null` when none exist. -/
def currentSheetOf (sg : SongObj) : Option SheetObj :=
  sg.sheets.getLast?

/-- `Frame`: name, palette map (character value → color value) and pixel
rows (each row the raw evaluated value, a string of palette characters in
well-formed programs). -/
structure FrameObj where
  frameName : Value
  colorData : List (Value × Value)
  pixelData : List Value
deriving DecidableEq, Repr

/-- `Sprite`: declared size (undefined until SIZE runs, hence `Option`),
ordered frames, the name → frame lookup (stored as an index into
`frames`, which is where every mapped frame object lives), and the
current-frame index (starts at `-1`). -/
structure SpriteObj where
  sizeX : Option Value
  sizeY : Option Value
  frames : List FrameObj
  frameMap : List (Value × Nat)
  frameIndex : Int
deriving DecidableEq, Repr

/-- A fresh sprite (`new Sprite()`). -/
def newSprite : SpriteObj :=
  { sizeX := none, sizeY := none, frames := [], frameMap := [], frameIndex := -1 }

/-- `Sprite.currentFrame` (getter): `frames[frameIndex]`, `undefined`
when the index is out of range. -/
def currentFrameOf (sp : SpriteObj) : Option FrameObj :=
  if 0 ≤ sp.frameIndex then sp.frames[sp.frameIndex.toNat]? else none

/-- One scope of the environment chain (`Environment`): variable table,
sprite and song tables (values as arena indices), the active names, and
the enclosing scope's arena index.  Sprite/song names are arbitrary
evaluated values, matching the JS maps. -/
structure Scope where
  values : List (String × Value)
  sprites : List (Value × Nat)
  currentSpriteName : Value
  songs : List (Value × Nat)
  currentSongName : Value
  enclosing : Option Nat
deriving DecidableEq, Repr

/-- A fresh scope (`new Environment(enclosing)`). -/
def newScope (enclosing : Option Nat) : Scope :=
  { values := [], sprites := [], currentSpriteName := vStr "",
    songs := [], currentSongName := vStr "", enclosing := enclosing }

/-- Rendering calls issued to the canvas context, recorded behaviourally
(the drawing backend is an external collaborator). -/
inductive RenderEvent where
  | fillRect (x y w h : Value) (style : Value)
  | fillText (text x y : Value) (font : String) (style : Value)
deriving DecidableEq, Repr

/-- The 2D context singleton: current fill style, current font, and the
trace of issued calls. -/
structure CtxObj where
  fillStyle : Value
  font : String
  events : List RenderEvent
deriving DecidableEq, Repr

/-- A fresh context (default canvas fill style). -/
def newCtx : CtxObj := { fillStyle := vStr "#000000", font := "", events := [] }

/-- The canvas singleton: its dimensions as assigned by WINDOW. -/
structure CanvasObj where
  width : Value
  height : Value
deriving DecidableEq, Repr

/-- The whole interpreter state: the scope arena, the sprite and song
arenas, the canvas/context singletons, the process-wide running flag, the
observable output traces, and snapshots of the external input/entropy
backends. -/
structure St where
  scopes : List Scope
  sprites : List SpriteObj
  songs : List SongObj
  canvas : Option CanvasObj
  ctx : Option CtxObj
  running : Bool
  printed : List Value
  debugged : List Value
  slept : List Value
  played : List Nat
  randoms : List ℚ
  keys : List (String × Bool)
  mouseX : ℚ
  mouseY : ℚ
deriving DecidableEq, Repr

/-- The state `OneShot.run` starts from: one root scope, `running` set. -/
def initialSt : St :=
  { scopes := [newScope none], sprites := [], songs := [], canvas := none,
    ctx := none, running := true, printed := [], debugged := [], slept := [],
    played := [], randoms := [], keys := [], mouseX := 0, mouseY := 0 }

/-! ## Generic map/list helpers (JS `Map.set` keeps insertion order and
updates in place; JS array index assignment at `length` appends) -/

/-- Association-list lookup (JS `Map.get`). -/
def mapGet {α β : Type} [DecidableEq α] (m : List (α × β)) (k : α) : Option β :=
  match m with
  | [] => none
  | (k', v) :: rest => if k' = k then some v else mapGet rest k

/-- Association-list update-or-append (JS `Map.set`). -/
def mapSet {α β : Type} [DecidableEq α] (m : List (α × β)) (k : α) (v : β) :
    List (α × β) :=
  match m with
  | [] => [(k, v)]
  | (k', v') :: rest => if k' = k then (k, v) :: rest else (k', v') :: mapSet rest k v

/-- Update the element at an index, when present. -/
def updAt {α : Type} (i : Nat) (f : α → α) : List α → List α
  | [] => []
  | a :: as =>
    match i with
    | 0 => f a :: as
    | j + 1 => a :: updAt j f as

/-! ## Environment chain operations

Each walks outward through `enclosing` indices.  The interpreter only
creates children of existing scopes, so a parent index is always strictly
smaller than its child's, and a walk starting at scope `i` visits at most
`i + 1` scopes; the walkers therefore recurse on that bound as fuel
(exhaustion would require a malformed chain, which the interpreter never
produces). -/

/-- `Environment.get`, fuelled walk. -/
def getVarFuel (scopes : List Scope) : Nat → Nat → String → Except String Value
  | 0, _, _ => .error "TypeError: scope chain too deep"
  | fuel + 1, i, name =>
    match scopes[i]? with
    | none => .error "TypeError: invalid scope"
    | some sc =>
      match mapGet sc.values name with
      | some v => .ok v
      | none =>
        match sc.enclosing with
        | some p => getVarFuel scopes fuel p name
        | none => .error ("Undefined variable: " ++ name)

/-- `Environment.get`. -/
def getVarScopes (scopes : List Scope) (i : Nat) (name : String) :
    Except String Value :=
  getVarFuel scopes (i + 1) i name

/-- `Environment.assign`, fuelled walk: update the innermost scope that
binds the name, or fail at the root. -/
def assignVarFuel (scopes : List Scope) :
    Nat → Nat → String → Value → Except String (List Scope)
  | 0, _, _, _ => .error "TypeError: scope chain too deep"
  | fuel + 1, i, name, v =>
    match scopes[i]? with
    | none => .error "TypeError: invalid scope"
    | some sc =>
      match mapGet sc.values name with
      | some _ => .ok (updAt i (fun s => { s with values := mapSet s.values name v }) scopes)
      | none =>
        match sc.enclosing with
        | some p => assignVarFuel scopes fuel p name v
        | none => .error ("Undefined variable: " ++ name)

/-- `Environment.assign`. -/
def assignVarScopes (scopes : List Scope) (i : Nat) (name : String) (v : Value) :
    Except String (List Scope) :=
  assignVarFuel scopes (i + 1) i name v

/-- `Environment.define` (`LET`): set the name in this scope. -/
def defineVar (st : St) (env : Nat) (name : String) (v : Value) : St :=
  { st with scopes := updAt env (fun s => { s with values := mapSet s.values name v }) st.scopes }

/-- `Environment.currentSprite` (getter), fuelled walk: resolve the
active sprite name through the chain; `none` models the implicit
`undefined`. -/
def currentSpriteFuel (scopes : List Scope) : Nat → Nat → Option Nat
  | 0, _ => none
  | fuel + 1, i =>
    match scopes[i]? with
    | none => none
    | some sc =>
      match mapGet sc.sprites sc.currentSpriteName with
      | some k => some k
      | none =>
        match sc.enclosing with
        | some p => currentSpriteFuel scopes fuel p
        | none => none

/-- `Environment.currentSprite` (getter). -/
def currentSpriteIdx (scopes : List Scope) (i : Nat) : Option Nat :=
  currentSpriteFuel scopes (i + 1) i

/-- `Environment.currentSong` (getter), fuelled walk. -/
def currentSongFuel (scopes : List Scope) : Nat → Nat → Option Nat
  | 0, _ => none
  | fuel + 1, i =>
    match scopes[i]? with
    | none => none
    | some sc =>
      match mapGet sc.songs sc.currentSongName with
      | some k => some k
      | none =>
        match sc.enclosing with
        | some p => currentSongFuel scopes fuel p
        | none => none

/-- `Environment.currentSong` (getter). -/
def currentSongIdx (scopes : List Scope) (i : Nat) : Option Nat :=
  currentSongFuel scopes (i + 1) i

/-- `Environment.getSprite`, fuelled walk: chain lookup by name, failing
like the source when the walk reaches the root without a hit. -/
def getSpriteFuel (scopes : List Scope) : Nat → Nat → Value → Except String Nat
  | 0, _, _ => .error "TypeError: scope chain too deep"
  | fuel + 1, i, name =>
    match scopes[i]? with
    | none => .error "TypeError: invalid scope"
    | some sc =>
      match mapGet sc.sprites name with
      | some k => .ok k
      | none =>
        match sc.enclosing with
        | some p => getSpriteFuel scopes fuel p name
        | none => .error ("Undefined sprite: " ++ jsToString name)

/-- `Environment.getSprite`. -/
def getSpriteIdx (scopes : List Scope) (i : Nat) (name : Value) :
    Except String Nat :=
  getSpriteFuel scopes (i + 1) i name

/-- `Environment.getSong`, fuelled walk. -/
def getSongFuel (scopes : List Scope) : Nat → Nat → Value → Except String Nat
  | 0, _, _ => .error "TypeError: scope chain too deep"
  | fuel + 1, i, name =>
    match scopes[i]? with
    | none => .error "TypeError: invalid scope"
    | some sc =>
      match mapGet sc.songs name with
      | some k => .ok k
      | none =>
        match sc.enclosing with
        | some p => getSongFuel scopes fuel p name
        | none => .error ("Undefined song: " ++ jsToString name)

/-- `Environment.getSong`. -/
def getSongIdx (scopes : List Scope) (i : Nat) (name : Value) :
    Except String Nat :=
  getSongFuel scopes (i + 1) i name

/-- `Environment.addNewSprite`: register a fresh sprite in this scope's
table (a new object in the arena) and make it active. -/
def addNewSprite (st : St) (env : Nat) (name : Value) : St :=
  let k := st.sprites.length
  { st with
    sprites := st.sprites ++ [newSprite]
    scopes := updAt env
      (fun s => { s with currentSpriteName := name, sprites := mapSet s.sprites name k })
      st.scopes }

/-- `Environment.resetSprite`. -/
def resetSprite (st : St) (env : Nat) : St :=
  { st with
    scopes := updAt env (fun s => { s with currentSpriteName := vStr "" }) st.scopes }

/-- `Environment.addNewSong`. -/
def addNewSong (st : St) (env : Nat) (name : Value) : St :=
  let k := st.songs.length
  { st with
    songs := st.songs ++ [newSong]
    scopes := updAt env
      (fun s => { s with currentSongName := name, songs := mapSet s.songs name k })
      st.scopes }

/-- `Environment.resetSong`. -/
def resetSong (st : St) (env : Nat) : St :=
  { st with
    scopes := updAt env (fun s => { s with currentSongName := vStr "" }) st.scopes }

/-- `new Environment(enclosing)` during block execution: append a child
scope, returning the new state and the child's index. -/
def pushScope (st : St) (env : Nat) : St × Nat :=
  ({ st with scopes := st.scopes ++ [newScope (some env)] }, st.scopes.length)

/-! ## The note sequencer's bar parser (`Sheet.build`) -/

/-- The three `replaceAll` calls of `Sheet.build`: each replaces one
single character by a space, i.e. a character map. -/
def normChar (c : Char) : Char :=
  if c = '\r' ∨ c = '\n' ∨ c = '\t' then ' ' else c

/-- `String.split(" ")`: split on single spaces, keeping empty pieces
between consecutive separators (and producing `[""]` on empty input). -/
def splitSp : List Char → List Char → List String
  | [], acc => [String.mk acc.reverse]
  | ' ' :: rest, acc => String.mk acc.reverse :: splitSp rest []
  | c :: rest, acc => splitSp rest (c :: acc)

/-- Tokenise accumulated bar text exactly as `Sheet.build` does:
`bars.trim().replaceAll("\r"," ").replaceAll("\n"," ").replaceAll("\t"," ").split(" ")`. -/
def barTokens (bars : String) : List String :=
  splitSp ((charTrim bars.data).map normChar) []

/-- Increment the duration of the last note (`previousNote.length++`). -/
def bumpLast (notes : List NoteObj) : List NoteObj :=
  updAt (notes.length - 1) (fun n => { n with length := n.length + 1 }) notes

/-- One loop iteration of `Sheet.build` over a bar token.
`--` creates a rest `new Note()` (pitch `undefined`) unless the previous
entry's pitch text equals `"--"`; `..` increments the previous entry's
duration (a `TypeError` when there is none); anything else appends a new
note with the token as pitch and duration 1. -/
def buildStep (notes : List NoteObj) (tok : String) : Except String (List NoteObj) :=
  if tok = "--" then
    match notes.getLast? with
    | some prev =>
      if prev.note = some "--" then .ok (bumpLast notes)
      else .ok (notes ++ [⟨none, 1⟩])
    | none => .ok (notes ++ [⟨none, 1⟩])
  else if tok = ".." then
    match notes.getLast? with
    | none => .error "TypeError: cannot read length of undefined"
    | some _ => .ok (bumpLast notes)
  else
    .ok (notes ++ [⟨some tok, 1⟩])

/-- The `for (const sheetNote of sheetNotes)` loop of `Sheet.build`. -/
def buildList (notes : List NoteObj) : List String → Except String (List NoteObj)
  | [] => .ok notes
  | t :: ts => do
    let notes' ← buildStep notes t
    buildList notes' ts

/-- `Sheet.build`: append the parsed bar tokens to the sheet's note list
(the list the sheet already carries, as in the source). -/
def sheetBuild (sh : SheetObj) : Except String SheetObj :=
  (buildList sh.notes (barTokens sh.bars)).map (fun ns => { sh with notes := ns })

/-- `Note.noteOffsets` and `Note.#getFrequency`, as an exact-rational
statement: `2 ^ (semitones / 12)` is irrational in general, so the model
exposes the semitone distance from A4; `A4` itself is the zero point, at
which the source computes `440 * 2^0 = 440`. -/
def noteOffset : Char → Option Int
  | 'C' => some (-9)
  | 'D' => some (-7)
  | 'E' => some (-5)
  | 'F' => some (-4)
  | 'G' => some (-2)
  | 'A' => some 0
  | 'B' => some 2
  | _ => none

/-! ## Expression evaluation -/

/-- `BinaryExpression.#isEqual`'s final `a === b` (strict equality). -/
def strictEq : Value → Value → Bool
  | vNum a, vNum b => a = b
  | vStr a, vStr b => a = b
  | vBool a, vBool b => a = b
  | vNull, vNull => true
  | _, _ => false

/-- `BinaryExpression.#isEqual`: null equals only null, otherwise strict
equality. -/
def isEqualJs (a b : Value) : Bool :=
  if a = vNull ∧ b = vNull then true
  else if a = vNull then false
  else strictEq a b

/-- The operator switch of `BinaryExpression.interpret`.  The arithmetic
and comparison cases check both operands are numbers
(`#checkNumberOperands`) and fail with its message otherwise; `+` has the
four typed cases and falls through to `return null` for any other operand
types; `==`/`<>` use `#isEqual`; an operator outside the switch yields
`null`.  Division is exact rational division (JS produces
`Infinity`/`NaN` for a zero divisor; no claim exercises that). -/
def binaryOpEval (op : TokenType) (l r : Value) : Except String Value :=
  match op with
  | .MINUS =>
    match l, r with
    | vNum a, vNum b => .ok (vNum (a - b))
    | _, _ => .error "Operands must be numbers"
  | .SLASH =>
    match l, r with
    | vNum a, vNum b => .ok (vNum (a / b))
    | _, _ => .error "Operands must be numbers"
  | .STAR =>
    match l, r with
    | vNum a, vNum b => .ok (vNum (a * b))
    | _, _ => .error "Operands must be numbers"
  | .PLUS =>
    match l, r with
    | vNum a, vNum b => .ok (vNum (a + b))
    | vStr a, vStr b => .ok (vStr (a ++ b))
    | vStr a, vNum b => .ok (vStr (a ++ ratToString b))
    | vNum a, vStr b => .ok (vStr (ratToString a ++ b))
    | _, _ => .ok vNull
  | .GREATER =>
    match l, r with
    | vNum a, vNum b => .ok (vBool (a > b))
    | _, _ => .error "Operands must be numbers"
  | .GREATER_EQUAL =>
    match l, r with
    | vNum a, vNum b => .ok (vBool (a ≥ b))
    | _, _ => .error "Operands must be numbers"
  | .LESS =>
    match l, r with
    | vNum a, vNum b => .ok (vBool (a < b))
    | _, _ => .error "Operands must be numbers"
  | .LESS_EQUAL =>
    match l, r with
    | vNum a, vNum b => .ok (vBool (a ≤ b))
    | _, _ => .error "Operands must be numbers"
  | .EQUAL_EQUAL => .ok (vBool (isEqualJs l r))
  | .NOT_EQUAL => .ok (vBool (!isEqualJs l r))
  | _ => .ok vNull

/-- `Input.getKey`, modelled as a pure lookup into the input snapshot
(the source also inserts a `false` entry for unseen keys, which is
observationally the same here). -/
def lookupKey (keys : List (String × Bool)) (k : String) : Bool :=
  match mapGet keys k with
  | some b => b
  | none => false

/-- Expression interpretation (`Expression.interpret` overloads):
threads the state and fails like the source.  Built-ins backed by
external collaborators read the input/entropy snapshots in the state.
The math built-ins coerce with `Number(...)`; paths where JS produces
`NaN` are modelled as errors and exercised by no claim. -/
def evalExpr : Expr → Nat → St → Except String (Value × St)
  | .literal v, _, st => .ok (v, st)
  | .grouping e, env, st => evalExpr e env st
  | .unary op r, env, st => do
    let (rv, st1) ← evalExpr r env st
    match op with
    | .MINUS =>
      match rv with
      | vNum q => .ok (vNum (-q), st1)
      | _ => .error "Operand must be a number"
    | .NOT => .ok (vBool (!isTruthy rv), st1)
    | _ => .ok (vNull, st1)
  | .binary l op r, env, st => do
    let (lv, st1) ← evalExpr l env st
    let (rv, st2) ← evalExpr r env st1
    let v ← binaryOpEval op lv rv
    .ok (v, st2)
  | .logical l op r, env, st => do
    let (lv, st1) ← evalExpr l env st
    if op = .OR then
      if isTruthy lv then .ok (lv, st1) else evalExpr r env st1
    else
      if !isTruthy lv then .ok (lv, st1) else evalExpr r env st1
  | .assign name value, env, st => do
    let (v, st1) ← evalExpr value env st
    let scopes' ← assignVarScopes st1.scopes env name v
    .ok (vNull, { st1 with scopes := scopes' })
  | .var name, env, st => do
    let v ← getVarScopes st.scopes env name
    .ok (v, st)
  | .random, _, st =>
    match st.randoms with
    | [] => .ok (vNum 0, st)
    | r :: rest => .ok (vNum r, { st with randoms := rest })
  | .input k, env, st => do
    let (kv, st1) ← evalExpr k env st
    match kv with
    | vStr s => .ok (vBool (lookupKey st1.keys s.toUpper), st1)
    | _ => .error "TypeError: key.toLocaleUpperCase is not a function"
  | .int e, env, st => do
    let (v, st1) ← evalExpr e env st
    match jsNumberOf v with
    | some q => .ok (vNum q, st1)
    | none => .error "NaN result (not modelled)"
  | .min a b, env, st => do
    let (av, st1) ← evalExpr a env st
    let (bv, st2) ← evalExpr b env st1
    match jsNumberOf av, jsNumberOf bv with
    | some x, some y => .ok (vNum (if x ≤ y then x else y), st2)
    | _, _ => .error "NaN result (not modelled)"
  | .max a b, env, st => do
    let (av, st1) ← evalExpr a env st
    let (bv, st2) ← evalExpr b env st1
    match jsNumberOf av, jsNumberOf bv with
    | some x, some y => .ok (vNum (if x ≤ y then y else x), st2)
    | _, _ => .error "NaN result (not modelled)"
  | .abs e, env, st => do
    let (v, st1) ← evalExpr e env st
    match jsNumberOf v with
    | some q => .ok (vNum |q|, st1)
    | none => .error "NaN result (not modelled)"
  | .floor e, env, st => do
    let (v, st1) ← evalExpr e env st
    match jsNumberOf v with
    | some q => .ok (vNum (⌊q⌋ : ℤ), st1)
    | none => .error "NaN result (not modelled)"
  | .ceil e, env, st => do
    let (v, st1) ← evalExpr e env st
    match jsNumberOf v with
    | some q => .ok (vNum (⌈q⌉ : ℤ), st1)
    | none => .error "NaN result (not modelled)"
  | .lerp a b t, env, st => do
    let (t1, st1) ← evalExpr t env st
    let (av, st2) ← evalExpr a env st1
    let (t2, st3) ← evalExpr t env st2
    let (bv, st4) ← evalExpr b env st3
    match jsNumberOf t1, jsNumberOf av, jsNumberOf t2, jsNumberOf bv with
    | some tq1, some aq, some tq2, some bq =>
      .ok (vNum ((1 - tq1) * aq + tq2 * bq), st4)
    | _, _, _, _ => .error "NaN result (not modelled)"
  | .mouseX, _, st => .ok (vNum st.mouseX, st)
  | .mouseY, _, st => .ok (vNum st.mouseY, st)

/-! ## Statements -/

/-- Statement nodes, one constructor per `Statement` subclass.  `FILL`
with the bare `ALL` form is the parser's `new FillStatement()` with no
operand expressions; a `FRAME` block's name expression is optional. -/
inductive Stmt where
  | block (stmts : List Stmt)
  | expr (e : Expr)
  | letS (name : String) (initializer : Option Expr)
  | debug (e : Expr)
  | print (e : Expr)
  | window (w h : Expr)
  | color (c : Expr)
  | fillAll
  | fill (x y w h : Expr)
  | text (x y t : Expr)
  | sleep (d : Expr)
  | size (x y : Expr)
  | draw (x y name frame : Expr)
  | colorData (ch col : Expr)
  | pixelData (d : Expr)
  | bar (b : Expr)
  | gain (g : Expr)
  | bpm (b : Expr)
  | loop (l : Expr)
  | type (t : Expr)
  | play (n : Expr)
  | stop (n : Expr)
  | ifS (cond : Expr) (thn els : List Stmt)
  | whileS (cond : Expr) (body : List Stmt)
  | forS (ini : Stmt) (cond : Expr) (inc : Stmt) (body : List Stmt)
  | sprite (name : Expr) (body : List Stmt)
  | frame (name : Option Expr) (body : List Stmt)
  | song (name : Expr) (body : List Stmt)
  | sheet (body : List Stmt)
deriving Repr

/-! ### Statement helpers -/

/-- Arena access that the interpreter only uses with indices it created
(failure is unreachable in produced states). -/
def getSpriteAt (st : St) (k : Nat) : Except String SpriteObj :=
  match st.sprites[k]? with
  | some sp => .ok sp
  | none => .error "TypeError: invalid sprite index"

/-- Arena access for songs. -/
def getSongAt (st : St) (k : Nat) : Except String SongObj :=
  match st.songs[k]? with
  | some sg => .ok sg
  | none => .error "TypeError: invalid song index"

/-- Replace sprite `k` in the arena. -/
def updSprite (st : St) (k : Nat) (f : SpriteObj → SpriteObj) : St :=
  { st with sprites := updAt k f st.sprites }

/-- Replace song `k` in the arena. -/
def updSong (st : St) (k : Nat) (f : SongObj → SongObj) : St :=
  { st with songs := updAt k f st.songs }

/-- Mutate `song.currentSheet` (the last sheet). -/
def updLastSheet (f : SheetObj → SheetObj) (sg : SongObj) : SongObj :=
  { sg with sheets := updAt (sg.sheets.length - 1) f sg.sheets }

/-- The `Sprite.currentFrame` setter: `frames[frameIndex] = frame`
followed by `frameMap.set(frame.frameName, frame)`.  The interpreter
increments `frameIndex` from `-1` immediately before every use, so the
index always equals the length of `frames`; other indices would create a
sparse JS array and are unreachable. -/
def setCurrentFrame (sp : SpriteObj) (fr : FrameObj) : Except String SpriteObj :=
  if sp.frameIndex < 0 then .error "TypeError: negative frame index"
  else
    let i := sp.frameIndex.toNat
    if i < sp.frames.length then
      .ok { sp with frames := updAt i (fun _ => fr) sp.frames,
                    frameMap := mapSet sp.frameMap fr.frameName i }
    else if i = sp.frames.length then
      .ok { sp with frames := sp.frames ++ [fr],
                    frameMap := mapSet sp.frameMap fr.frameName i }
    else .error "sparse frame array (not modelled)"

/-- Mutate the sprite's current frame, `none` when `frames[frameIndex]`
is `undefined`. -/
def updCurrentFrame (sp : SpriteObj) (f : FrameObj → FrameObj) : Option SpriteObj :=
  if 0 ≤ sp.frameIndex ∧ sp.frameIndex.toNat < sp.frames.length then
    some { sp with frames := updAt sp.frameIndex.toNat f sp.frames }
  else none

/-- `DrawStatement`'s frame selection: a numeric selector indexes
`frames` (a non-integer or negative index reads `undefined`), a string
selector goes through `frameMap`, anything else leaves the frame
`null`. -/
def resolveFrame (sp : SpriteObj) (spec : Value) : Option FrameObj :=
  match spec with
  | vNum q => if q.den = 1 ∧ 0 ≤ q.num then sp.frames[q.num.toNat]? else none
  | vStr s =>
    match mapGet sp.frameMap (vStr s) with
    | some i => sp.frames[i]?
    | none => none
  | _ => none

/-- JS truthiness of a raw value (`if (!color) continue`): `undefined`
and `null`, `false`, `0` and the empty string are falsy. -/
def jsValueTruthy : Value → Bool
  | vNum q => q ≠ 0
  | vStr s => s ≠ ""
  | vBool b => b
  | vNull => false

/-- Raw JS `+` of an evaluated value and a number (`x + j * 4` in
`DrawStatement`): numbers add, strings concatenate, booleans and `null`
coerce to numbers. -/
def jsAddNum (x : Value) (q : ℚ) : Value :=
  match x with
  | vNum a => vNum (a + q)
  | vStr s => vStr (s ++ ratToString q)
  | vBool b => vNum ((if b then 1 else 0 : ℚ) + q)
  | vNull => vNum q

/-- Characters of a pixel row; a non-string row has an `undefined`
`.length`, so its inner loop body never runs. -/
def rowChars : Value → List Char
  | vStr s => s.data
  | _ => []

/-- The inner (column) loop of `DrawStatement.interpret`: look each
palette character up in the frame's color map, skip falsy/missing colors,
otherwise set the fill style and issue a 4×4 grid-scaled `fillRect`. -/
def drawRow (cd : List (Value × Value)) (x y : Value) (i : Nat) :
    Nat → List Char → CtxObj → CtxObj
  | _, [], c => c
  | j, ch :: rest, c =>
    let c' :=
      match mapGet cd (vStr (String.mk [ch])) with
      | none => c
      | some col =>
        if jsValueTruthy col then
          { c with fillStyle := col,
                   events := c.events ++
                     [RenderEvent.fillRect (jsAddNum x (4 * j)) (jsAddNum y (4 * i))
                       (vNum 4) (vNum 4) col] }
        else c
    drawRow cd x y i (j + 1) rest c'

/-- The outer (row) loop of `DrawStatement.interpret`. -/
def drawRows (cd : List (Value × Value)) (x y : Value) :
    Nat → List Value → CtxObj → CtxObj
  | _, [], c => c
  | i, row :: rest, c => drawRows cd x y (i + 1) rest (drawRow cd x y i 0 (rowChars row) c)

/-- Both pixel loops of `DrawStatement.interpret` (between saving and
restoring the fill style). -/
def drawFramePixels (fr : FrameObj) (x y : Value) (c : CtxObj) : CtxObj :=
  drawRows fr.colorData x y 0 fr.pixelData c

/-- The `>` of `PIXELDATA`'s bounds checks: JS relational comparison
after numeric coercion; a comparison with `undefined`/`NaN` on either
side is false. -/
def jsGtNum : Option ℚ → Option ℚ → Bool
  | some x, some y => x > y
  | _, _ => false

/-- The length of `dataValue` in `PIXELDATA`: string length, `undefined`
for values without a `length` property (accessing it on `null` throws,
handled at the use site). -/
def jsLenOf : Value → Option ℚ
  | vStr s => some s.length
  | _ => none

/-! ### The statement interpreter

Fuel-based: every recursive call (into sub-statements and loop
iterations) runs on one unit less fuel, so the recursion is structural
on the fuel; exhausting it reports an artificial error, standing for a
run that has not finished within the given budget. -/

mutual

/-- `Statement.interpret`, one case per subclass. -/
def interpStmt : Nat → Stmt → Nat → St → Except String St
  | 0, _, _, _ => .error "out of fuel"
  | fuel + 1, s, env, st =>
    match s with
    | .block l =>
      let (st1, child) := pushScope st env
      interpStmts fuel l child st1
    | .expr e => do
      let (_, st1) ← evalExpr e env st
      .ok st1
    | .letS name ini =>
      match ini with
      | none => .ok (defineVar st env name vNull)
      | some e => do
        let (v, st1) ← evalExpr e env st
        .ok (defineVar st1 env name v)
    | .debug e => do
      let (v, st1) ← evalExpr e env st
      .ok { st1 with debugged := st1.debugged ++ [v] }
    | .print e => do
      let (v, st1) ← evalExpr e env st
      .ok { st1 with printed := st1.printed ++ [v] }
    | .window w h => do
      let (wv, st1) ← evalExpr w env st
      let (hv, st2) ← evalExpr h env st1
      let ctx' := match st2.ctx with
        | some c => some c
        | none => some newCtx
      .ok { st2 with canvas := some ⟨wv, hv⟩, ctx := ctx' }
    | .color ce => do
      let (cv, st1) ← evalExpr ce env st
      match st1.ctx with
      | none => .error "TypeError: ctx is null"
      | some c => .ok { st1 with ctx := some { c with fillStyle := cv } }
    | .fillAll =>
      match st.ctx with
      | none => .error "TypeError: ctx is null"
      | some c =>
        match st.canvas with
        | none => .error "TypeError: canvas is null"
        | some cv =>
          .ok { st with ctx := some { c with events := c.events ++
            [RenderEvent.fillRect (vNum 0) (vNum 0) cv.width cv.height c.fillStyle] } }
    | .fill x y w h => do
      let (xv, st1) ← evalExpr x env st
      let (yv, st2) ← evalExpr y env st1
      let (wv, st3) ← evalExpr w env st2
      let (hv, st4) ← evalExpr h env st3
      match st4.ctx with
      | none => .error "TypeError: ctx is null"
      | some c =>
        .ok { st4 with ctx := some { c with events := c.events ++
          [RenderEvent.fillRect xv yv wv hv c.fillStyle] } }
    | .text x y t => do
      let (xv, st1) ← evalExpr x env st
      let (yv, st2) ← evalExpr y env st1
      let (tv, st3) ← evalExpr t env st2
      match st3.ctx with
      | none => .error "TypeError: ctx is null"
      | some c =>
        let c' := { c with font := "20px dejavu, monospace" }
        .ok { st3 with ctx := some { c' with events := c'.events ++
          [RenderEvent.fillText tv xv yv c'.font c'.fillStyle] } }
    | .sleep d => do
      let (dv, st1) ← evalExpr d env st
      .ok { st1 with slept := st1.slept ++ [dv] }
    | .size x y =>
      match currentSpriteIdx st.scopes env with
      | none => .error "SIZE can only be used in SPRITE block"
      | some k => do
        let (xv, st1) ← evalExpr x env st
        let (yv, st2) ← evalExpr y env st1
        .ok (updSprite st2 k (fun sp => { sp with sizeX := some xv, sizeY := some yv }))
    | .draw x y nm fs => do
      let (xv, st1) ← evalExpr x env st
      let (yv, st2) ← evalExpr y env st1
      let (nv, st3) ← evalExpr nm env st2
      let (fv, st4) ← evalExpr fs env st3
      let k ← getSpriteIdx st4.scopes env nv
      let sp ← getSpriteAt st4 k
      let frameFound := resolveFrame sp fv
      match st4.ctx with
      | none => .error "TypeError: ctx is null"
      | some c0 =>
        match frameFound with
        | none => .error "TypeError: cannot read pixelData of null"
        | some fr =>
          let c1 := drawFramePixels fr xv yv c0
          .ok { st4 with ctx := some { c1 with fillStyle := c0.fillStyle } }
    | .colorData che cole => do
      let (chv, st1) ← evalExpr che env st
      let (colv, st2) ← evalExpr cole env st1
      match currentSpriteIdx st2.scopes env with
      | none => .error "COLORDATA can be used in SPRITE block"
      | some k => do
        let sp ← getSpriteAt st2 k
        match updCurrentFrame sp (fun fr =>
            { fr with colorData := mapSet fr.colorData chv colv }) with
        | none => .error "TypeError: cannot read colorData of undefined"
        | some sp' => .ok (updSprite st2 k (fun _ => sp'))
    | .pixelData de => do
      let (dv, st1) ← evalExpr de env st
      match currentSpriteIdx st1.scopes env with
      | none => .error "PIXELDATA can be used in SPRITE block"
      | some k => do
        let sp ← getSpriteAt st1 k
        if dv = vNull then .error "TypeError: cannot read length of null"
        else if jsGtNum (jsLenOf dv) (sp.sizeX.bind jsNumberOf) then
          .error "PIXELDATA exceeds SPRITE width"
        else
          match currentFrameOf sp with
          | none => .error "TypeError: cannot read pixelData of undefined"
          | some fr =>
            if jsGtNum (some ((fr.pixelData.length : ℚ) + 1)) (sp.sizeY.bind jsNumberOf) then
              .error "PIXELDATA exceeds SPRITE height"
            else
              match updCurrentFrame sp (fun fr' =>
                  { fr' with pixelData := fr'.pixelData ++ [dv] }) with
              | none => .error "TypeError: cannot read pixelData of undefined"
              | some sp' => .ok (updSprite st1 k (fun _ => sp'))
    | .bar be => do
      let (bv, st1) ← evalExpr be env st
      match currentSongIdx st1.scopes env with
      | none => .error "TypeError: cannot read currentSheet of undefined"
      | some k => do
        let sg ← getSongAt st1 k
        match currentSheetOf sg with
        | none => .error "BAR misuse"
        | some _ =>
          .ok (updSong st1 k (updLastSheet (fun sh =>
            { sh with bars := sh.bars ++ jsToString bv ++ "\n" })))
    | .gain ge => do
      let (gv, st1) ← evalExpr ge env st
      match currentSongIdx st1.scopes env with
      | none => .error "TypeError: cannot read currentSheet of undefined"
      | some k => do
        let sg ← getSongAt st1 k
        match currentSheetOf sg with
        | none => .error "TypeError: cannot set gain of null"
        | some _ =>
          match jsNumberOf gv with
          | none => .error "NaN result (not modelled)"
          | some q =>
            .ok (updSong st1 k (updLastSheet (fun sh => { sh with gain := vNum (q / 100) })))
    | .bpm be => do
      let (bv, st1) ← evalExpr be env st
      match currentSongIdx st1.scopes env with
      | none => .error "TypeError: cannot set bpm of undefined"
      | some k => .ok (updSong st1 k (fun sg => { sg with bpm := bv }))
    | .loop le => do
      let (lv, st1) ← evalExpr le env st
      match currentSongIdx st1.scopes env with
      | none => .error "TypeError: cannot set loop of undefined"
      | some k => .ok (updSong st1 k (fun sg => { sg with loop := isTruthy lv }))
    | .type te => do
      let (tv, st1) ← evalExpr te env st
      match currentSongIdx st1.scopes env with
      | none => .error "TypeError: cannot read currentSheet of undefined"
      | some k => do
        let sg ← getSongAt st1 k
        match currentSheetOf sg with
        | none => .error "TypeError: cannot set type of null"
        | some _ =>
          .ok (updSong st1 k (updLastSheet (fun sh => { sh with type := tv })))
    | .play ne => do
      -- `song.play()` is started fire-and-forget; the concurrent playback
      -- task (§5 of the spec) is recorded, not simulated.
      let (nv, st1) ← evalExpr ne env st
      let k ← getSongIdx st1.scopes env nv
      .ok { st1 with played := st1.played ++ [k] }
    | .stop ne => do
      let (nv, st1) ← evalExpr ne env st
      let k ← getSongIdx st1.scopes env nv
      .ok (updSong st1 k (fun sg =>
        { sg with sheets := sg.sheets.map (fun sh => { sh with playing := false }) }))
    | .ifS cond thn els => do
      let (cv, st1) ← evalExpr cond env st
      if isTruthy cv then interpStmts fuel thn env st1
      else interpStmts fuel els env st1
    | .whileS cond body => whileLoop fuel cond body env st
    | .forS ini cond inc body => do
      let st1 ← interpStmt fuel ini env st
      forLoop fuel cond inc body env st1
    | .sprite ne body => do
      let (nv, st1) ← evalExpr ne env st
      let st2 := addNewSprite st1 env nv
      let (st3, child) := pushScope st2 env
      let st4 ← interpStmts fuel body child st3
      .ok (resetSprite st4 env)
    | .frame ne body =>
      match currentSpriteIdx st.scopes env with
      | none => .error "FRAME block can only be used in SPRITE block"
      | some k =>
        let st1 := updSprite st k (fun sp => { sp with frameIndex := sp.frameIndex + 1 })
        match ne with
        | none => .error "TypeError: cannot interpret null frame name"
        | some nexp => do
          let (nv, st2) ← evalExpr nexp env st1
          let sp ← getSpriteAt st2 k
          let sp' ← setCurrentFrame sp ⟨nv, [], []⟩
          let st3 := updSprite st2 k (fun _ => sp')
          let (st4, child) := pushScope st3 env
          interpStmts fuel body child st4
    | .song ne body => do
      let (nv, st1) ← evalExpr ne env st
      let st2 := addNewSong st1 env nv
      let (st3, child) := pushScope st2 env
      let st4 ← interpStmts fuel body child st3
      .ok (resetSong st4 env)
    | .sheet body =>
      match currentSongIdx st.scopes env with
      | none => .error "TypeError: cannot read addSheet of undefined"
      | some k =>
        let st1 := updSong st k (fun sg =>
          { sg with sheets := sg.sheets ++ [newSheet sg.sheets.length] })
        let (st2, child) := pushScope st1 env
        interpStmts fuel body child st2
termination_by structural fuel _ _ _ => fuel

/-- Sequential execution of a statement list (`Interpreter.interpret`,
`BlockStatement.executeBlock`, and the branch loops of `IfStatement`). -/
def interpStmts : Nat → List Stmt → Nat → St → Except String St
  | 0, _, _, _ => .error "out of fuel"
  | _ + 1, [], _, st => .ok st
  | fuel + 1, s :: rest, env, st => do
    let st1 ← interpStmt fuel s env st
    interpStmts fuel rest env st1
termination_by structural fuel _ _ _ => fuel

/-- `WhileBlock.interpret`: re-evaluate the condition in the enclosing
environment and run each iteration's body in a fresh child environment,
checking the process-wide running flag at every iteration boundary. -/
def whileLoop : Nat → Expr → List Stmt → Nat → St → Except String St
  | 0, _, _, _, _ => .error "out of fuel"
  | fuel + 1, cond, body, env, st => do
    let (cv, st1) ← evalExpr cond env st
    if isTruthy cv && st1.running then
      let (st2, child) := pushScope st1 env
      let st3 ← interpStmts fuel body child st2
      whileLoop fuel cond body env st3
    else
      .ok st1
termination_by structural fuel _ _ _ _ => fuel

/-- The loop of `ForBlock.interpret` (after its initializer): body in a
fresh child environment, then the increment in the enclosing environment,
then the condition again. -/
def forLoop : Nat → Expr → Stmt → List Stmt → Nat → St → Except String St
  | 0, _, _, _, _, _ => .error "out of fuel"
  | fuel + 1, cond, inc, body, env, st => do
    let (cv, st1) ← evalExpr cond env st
    if isTruthy cv && st1.running then
      let (st2, child) := pushScope st1 env
      let st3 ← interpStmts fuel body child st2
      let st4 ← interpStmt fuel inc env st3
      forLoop fuel cond inc body env st4
    else
      .ok st1
termination_by structural fuel _ _ _ _ _ => fuel

end

/-- `OneShot.run` restricted to a single expression: scan the source
text, parse one expression, interpret it.  The parser fuel of 50 covers
every expression whose parse uses at most 50 nested routine calls, far
beyond the claims' inputs. -/
def evalTextExpr (src : String) (env : Nat) (st : St) : Except String (Value × St) := do
  let ts ← scanTokens src
  let (e, _) ← pExpression 50 ts
  evalExpr e env st

/-! ## Claim theorems -/

/-- **C3.** The truthiness predicate classifies exactly `null` and
boolean `false` as falsy; every other value — including the number `0`
and the empty string — is truthy.  Consequently `IF` with condition
`NULL` runs exactly its else branch, `IF` with condition `0` runs
exactly its if branch (both in the same environment), a `WHILE` whose
condition is `NULL` never runs its body, and unary `!` negates the same
predicate. -/
theorem truthiness_classification :
    (∀ v : Value, isTruthy v = false ↔ (v = .vNull ∨ v = .vBool false))
    ∧ isTruthy (.vNum 0) = true ∧ isTruthy (.vStr "") = true
    ∧ (∀ fuel thn els env st,
        interpStmt (fuel + 1) (.ifS (.literal .vNull) thn els) env st =
          interpStmts fuel els env st)
    ∧ (∀ fuel thn els env st,
        interpStmt (fuel + 1) (.ifS (.literal (.vNum 0)) thn els) env st =
          interpStmts fuel thn env st)
    ∧ (∀ fuel body env st,
        whileLoop (fuel + 1) (.literal .vNull) body env st = .ok st)
    ∧ (∀ v env st,
        evalExpr (.unary .NOT (.literal v)) env st = .ok (.vBool (!isTruthy v), st)) := by
  refine ⟨?_, rfl, rfl, ?_, ?_, ?_, ?_⟩
  · intro v
    cases v <;> simp [isTruthy]
  · intro fuel thn els env st; rfl
  · intro fuel thn els env st; rfl
  · intro fuel body env st; rfl
  · intro v env st
    cases v <;> rfl

/-- **C6.** Logical expressions short-circuit on the evaluated left
value: `OR` returns the left value (and its state) when it is truthy
without touching the right expression, `AND` returns the left value when
it is falsy, and in the remaining cases the whole expression's outcome is
exactly the right expression's evaluation — the value itself, not a
boolean coercion. -/
theorem logical_short_circuit :
    (∀ (l r : Expr) (env : Nat) (st st' : St) (v : Value),
      evalExpr l env st = .ok (v, st') → isTruthy v = true →
      evalExpr (.logical l .OR r) env st = .ok (v, st'))
    ∧ (∀ (l r : Expr) (env : Nat) (st st' : St) (v : Value),
      evalExpr l env st = .ok (v, st') → isTruthy v = false →
      evalExpr (.logical l .AND r) env st = .ok (v, st'))
    ∧ (∀ (l r : Expr) (env : Nat) (st st' : St) (v : Value),
      evalExpr l env st = .ok (v, st') → isTruthy v = false →
      evalExpr (.logical l .OR r) env st = evalExpr r env st')
    ∧ (∀ (l r : Expr) (env : Nat) (st st' : St) (v : Value),
      evalExpr l env st = .ok (v, st') → isTruthy v = true →
      evalExpr (.logical l .AND r) env st = evalExpr r env st') := by
  refine ⟨?_, ?_, ?_, ?_⟩ <;>
    · intro l r env st st' v h ht
      simp [evalExpr, h, ht, Bind.bind, Except.bind]

/-- Witness for `logical_short_circuit` at concrete inputs. -/
theorem logical_short_circuit_witness :
    evalExpr (.logical (.literal (.vNum 1)) .OR (.literal (.vNum 2))) 0 initialSt =
      .ok (.vNum 1, initialSt)
    ∧ evalExpr (.logical (.literal .vNull) .AND (.literal (.vNum 2))) 0 initialSt =
      .ok (.vNull, initialSt)
    ∧ evalExpr (.logical (.literal .vNull) .OR (.literal (.vNum 2))) 0 initialSt =
      evalExpr (.literal (.vNum 2)) 0 initialSt :=
  ⟨logical_short_circuit.1 _ _ 0 initialSt initialSt _ rfl rfl,
   logical_short_circuit.2.1 _ _ 0 initialSt initialSt _ rfl rfl,
   logical_short_circuit.2.2.1 _ _ 0 initialSt initialSt _ rfl rfl⟩

/-- A value is a number. -/
def isNumV : Value → Prop
  | .vNum _ => True
  | _ => False

/-- **C2.** Binary `+` adds two numbers, concatenates two strings, and
coerces the non-string side in the mixed cases; every other arithmetic or
comparison operator fails with the type-mismatch message unless both
operands are numbers, and succeeds on two numbers.  Concretely,
`"a" + 1` is `"a1"`, `1 + "a"` is `"1a"`, and `1 + "a" > 2` fails. -/
theorem plus_coercion_and_numeric_guards :
    (∀ a b : ℚ, binaryOpEval .PLUS (.vNum a) (.vNum b) = .ok (.vNum (a + b)))
    ∧ (∀ s t : String, binaryOpEval .PLUS (.vStr s) (.vStr t) = .ok (.vStr (s ++ t)))
    ∧ (∀ (s : String) (b : ℚ),
        binaryOpEval .PLUS (.vStr s) (.vNum b) = .ok (.vStr (s ++ ratToString b)))
    ∧ (∀ (a : ℚ) (t : String),
        binaryOpEval .PLUS (.vNum a) (.vStr t) = .ok (.vStr (ratToString a ++ t)))
    ∧ (∀ op ∈ ([.MINUS, .SLASH, .STAR, .GREATER, .GREATER_EQUAL, .LESS,
          .LESS_EQUAL] : List TokenType),
        (∀ l r : Value, ¬(isNumV l ∧ isNumV r) →
          binaryOpEval op l r = .error "Operands must be numbers")
        ∧ (∀ a b : ℚ, ∃ v, binaryOpEval op (.vNum a) (.vNum b) = .ok v))
    ∧ (∀ env st, evalExpr (.binary (.literal (.vStr "a")) .PLUS (.literal (.vNum 1)))
        env st = .ok (.vStr "a1", st))
    ∧ (∀ env st, evalExpr (.binary (.literal (.vNum 1)) .PLUS (.literal (.vStr "a")))
        env st = .ok (.vStr "1a", st))
    ∧ (∀ env st, evalExpr (.binary (.binary (.literal (.vNum 1)) .PLUS
          (.literal (.vStr "a"))) .GREATER (.literal (.vNum 2))) env st =
        .error "Operands must be numbers") := by
  refine ⟨fun a b => rfl, fun s t => rfl, fun s b => rfl, fun a t => rfl, ?_,
    fun env st => rfl, fun env st => rfl, fun env st => rfl⟩
  intro op hop
  fin_cases hop <;>
    exact ⟨fun l r hnot => by
        cases l <;> cases r <;> first
          | rfl
          | exact absurd ⟨trivial, trivial⟩ hnot,
      fun a b => ⟨_, rfl⟩⟩

/-- Witness for `plus_coercion_and_numeric_guards` at concrete inputs. -/
theorem plus_coercion_witness :
    binaryOpEval .MINUS (.vStr "x") (.vNum 1) = .error "Operands must be numbers" :=
  (plus_coercion_and_numeric_guards.2.2.2.2.1 .MINUS (by simp)).1 _ _
    (by intro h; exact h.1)

/-- **C8 (counterexample).** On the bar text `"A4 --"` the builder
produces two entries — the note `A4` with duration 1 and a fresh rest —
whereas the claim predicts a single `A4` entry of duration 2; with
`"A4 -- --"` the two hold markers do not merge either. -/
theorem bar_hold_counterexample :
    buildList [] (barTokens "A4 --") = .ok [⟨some "A4", 1⟩, ⟨none, 1⟩]
    ∧ buildList [] (barTokens "A4 --") ≠ .ok [⟨some "A4", 2⟩]
    ∧ buildList [] (barTokens "A4 -- --") =
        .ok [⟨some "A4", 1⟩, ⟨none, 1⟩, ⟨none, 1⟩] := by
  refine ⟨by decide, by decide, by decide⟩

/-- An element of `updAt i f l` is an element of `l` or the image under
`f` of one. -/
theorem mem_updAt {α : Type} {x : α} {f : α → α} :
    ∀ {l : List α} {i : Nat}, x ∈ updAt i f l → x ∈ l ∨ ∃ a ∈ l, x = f a
  | [], i, h => by simp [updAt] at h
  | a :: as, 0, h => by
    rcases List.mem_cons.mp h with h | h
    · exact .inr ⟨a, List.mem_cons_self a as, h⟩
    · exact .inl (List.mem_cons_of_mem _ h)
  | a :: as, j + 1, h => by
    rcases List.mem_cons.mp h with h | h
    · exact .inl (h ▸ List.mem_cons_self a as)
    · rcases mem_updAt h with h' | ⟨b, hb, hx⟩
      · exact .inl (List.mem_cons_of_mem _ h')
      · exact .inr ⟨b, List.mem_cons_of_mem _ hb, hx⟩

/-- `buildStep` never stores the hold marker as a pitch. -/
theorem buildStep_no_hold {notes l : List NoteObj} {t : String}
    (hinv : ∀ n ∈ notes, n.note ≠ some "--")
    (h : buildStep notes t = .ok l) : ∀ n ∈ l, n.note ≠ some "--" := by
  unfold buildStep at h
  by_cases ht : t = "--"
  · simp only [ht, if_pos rfl] at h
    match hl : notes.getLast? with
    | some prev =>
      have hprev := hinv prev (List.mem_of_getLast?_eq_some hl)
      rw [hl] at h
      simp only [hprev, if_neg] at h
      cases h
      intro n hn
      rcases List.mem_append.mp hn with hn | hn
      · exact hinv n hn
      · simp at hn; simp [hn]
    | none =>
      rw [hl] at h
      cases h
      intro n hn
      rcases List.mem_append.mp hn with hn | hn
      · exact hinv n hn
      · simp at hn; simp [hn]
  · rw [if_neg ht] at h
    by_cases ht2 : t = ".."
    · simp only [ht2, if_pos rfl] at h
      match hl : notes.getLast? with
      | none => rw [hl] at h; cases h
      | some prev =>
        rw [hl] at h
        cases h
        intro n hn
        rcases mem_updAt hn with hn' | ⟨a, ha, hx⟩
        · exact hinv n hn'
        · rw [hx]; exact hinv a ha
    · rw [if_neg ht2] at h
      cases h
      intro n hn
      rcases List.mem_append.mp hn with hn | hn
      · exact hinv n hn
      · simp at hn
        simp [hn, ht]

/-- Every entry a bar-token run produces keeps its pitch different from
the hold marker. -/
theorem buildList_no_hold :
    ∀ (toks : List String) (acc l : List NoteObj),
      (∀ n ∈ acc, n.note ≠ some "--") → buildList acc toks = .ok l →
      ∀ n ∈ l, n.note ≠ some "--" := by
  intro toks
  induction toks with
  | nil => intro acc l hinv h; cases h; exact hinv
  | cons t ts ih =>
    intro acc l hinv h
    simp only [buildList] at h
    match hs : buildStep acc t with
    | .error e => rw [hs] at h; cases h
    | .ok acc' =>
      rw [hs] at h
      exact ih acc' l (buildStep_no_hold hinv hs) h

/-- Processing one more token is processing the list and then stepping. -/
theorem buildList_append (t : String) :
    ∀ (xs : List String) (acc : List NoteObj),
      buildList acc (xs ++ [t]) = (buildList acc xs) >>= (fun l => buildStep l t) := by
  intro xs
  induction xs with
  | nil =>
    intro acc
    simp only [List.nil_append, buildList]
    match hs : buildStep acc t with
    | .error e => simp [hs, Bind.bind, Except.bind]
    | .ok acc' => simp [hs, Bind.bind, Except.bind, buildList]
  | cons x xs ih =>
    intro acc
    simp only [List.cons_append, buildList]
    match hs : buildStep acc x with
    | .error e => simp [hs, Bind.bind, Except.bind]
    | .ok acc' => simp only [hs, Bind.bind, Except.bind]; exact ih acc'

/-- **C8 (amended).** Bar text is trimmed, CR/LF/tab are normalised to
spaces, and the text is split on single spaces.  For the resulting
tokens: a hold marker `--` always appends a fresh rest entry (pitch
`undefined`, duration 1) — the source's branch that would merge it into a
preceding hold compares the previous entry's pitch text with `"--"`,
which never matches because rests store no pitch text, so consecutive
hold markers each append their own rest and a hold after a note leaves
that note's duration untouched; an extend marker `..` increments the
preceding entry's duration without adding an entry; any other token
appends a new note with that token as pitch text and duration 1. -/
theorem bar_build_amended :
    (∀ toks l, buildList [] toks = .ok l → ∀ n ∈ l, n.note ≠ some "--")
    ∧ (∀ toks l, buildList [] toks = .ok l →
        buildList [] (toks ++ ["--"]) = .ok (l ++ [⟨none, 1⟩]))
    ∧ (∀ toks l, buildList [] toks = .ok l → l ≠ [] →
        buildList [] (toks ++ [".."]) = .ok (bumpLast l))
    ∧ (∀ toks l t, buildList [] toks = .ok l → t ≠ "--" → t ≠ ".." →
        buildList [] (toks ++ [t]) = .ok (l ++ [⟨some t, 1⟩]))
    ∧ buildList [] (barTokens "A4 ..") = .ok [⟨some "A4", 2⟩]
    ∧ buildList [] (barTokens "C4\nD4\t E4") =
        .ok [⟨some "C4", 1⟩, ⟨some "D4", 1⟩, ⟨some "", 1⟩, ⟨some "E4", 1⟩] := by
  refine ⟨?_, ?_, ?_, ?_, by decide, by decide⟩
  · intro toks l h
    exact buildList_no_hold toks [] l (by simp) h
  · intro toks l h
    rw [buildList_append, h]
    simp only [Bind.bind, Except.bind]
    unfold buildStep
    rw [if_pos rfl]
    match hl : l.getLast? with
    | none => rfl
    | some prev =>
      have hprev := buildList_no_hold toks [] l (by simp) h prev
        (List.mem_of_getLast?_eq_some hl)
      simp [hprev]
  · intro toks l h hne
    rw [buildList_append, h]
    simp only [Bind.bind, Except.bind]
    unfold buildStep
    rw [if_neg (by decide), if_pos rfl]
    match hl : l.getLast? with
    | none => exact absurd (List.getLast?_eq_none_iff.mp hl) hne
    | some prev => rfl
  · intro toks l t h ht1 ht2
    rw [buildList_append, h]
    simp only [Bind.bind, Except.bind]
    unfold buildStep
    rw [if_neg ht1, if_neg ht2]

/-- Witness for `bar_build_amended` at concrete inputs. -/
theorem bar_build_amended_witness :
    buildList [] (["A4"] ++ ["--"]) = .ok ([⟨some "A4", 1⟩] ++ [⟨none, 1⟩])
    ∧ buildList [] (["A4"] ++ [".."]) = .ok (bumpLast [⟨some "A4", 1⟩])
    ∧ buildList [] (["A4"] ++ ["D4"]) = .ok ([⟨some "A4", 1⟩] ++ [⟨some "D4", 1⟩]) :=
  ⟨bar_build_amended.2.1 ["A4"] _ (by decide),
   bar_build_amended.2.2.1 ["A4"] _ (by decide) (by decide),
   bar_build_amended.2.2.2.1 ["A4"] _ "D4" (by decide) (by decide) (by decide)⟩

/-- A state with one root scope holding an active song that has no
sheets yet — exactly the state inside `SONG "s" … END` before any
`SHEET`. -/
def songRootScope : Scope :=
  { newScope none with songs := [(Value.vStr "s", 0)], currentSongName := Value.vStr "s" }

/-- See `songNoSheetSt`. -/
def songNoSheetSt : St :=
  { initialSt with scopes := [songRootScope], songs := [newSong] }

/-- **C9 (counterexample).** In an environment chain with an active song
but no current sheet, `BPM 100` does not raise any error: it succeeds
and mutates the song's tempo (and `LOOP TRUE` likewise sets the loop
flag), contradicting the claim that every `BPM`/`LOOP` execution without
a current sheet raises an immediate misuse error. -/
theorem song_level_bpm_counterexample :
    currentSongIdx songNoSheetSt.scopes 0 = some 0
    ∧ songNoSheetSt.songs = [newSong] ∧ newSong.sheets = []
    ∧ interpStmt 5 (.bpm (.literal (.vNum 100))) 0 songNoSheetSt =
        .ok { songNoSheetSt with songs := [{ newSong with bpm := .vNum 100 }] }
    ∧ interpStmt 5 (.loop (.literal (.vBool true))) 0 songNoSheetSt =
        .ok { songNoSheetSt with songs := [{ newSong with loop := true }] } := by
  refine ⟨by decide, by decide, by decide, by decide, by decide⟩

/-- **C9 (amended).**  With no active sprite anywhere on the chain,
`SIZE` (before even evaluating its operands), `COLORDATA` and
`PIXELDATA` raise their misuse errors and the run aborts with no state
surviving; with no active song, `BAR`, `GAIN`, `BPM`, `LOOP` and `TYPE`
raise immediate errors (dereferencing the `undefined` song); with an
active song but no current sheet, `BAR`, `GAIN` and `TYPE` still raise
immediate errors, while `BPM` and `LOOP` are song-level statements that
succeed there (the counterexample). -/
theorem target_statement_misuse_amended :
    (∀ (st : St) (env fuel : Nat) (x y : Expr),
      currentSpriteIdx st.scopes env = none →
      interpStmt (fuel + 1) (.size x y) env st =
        .error "SIZE can only be used in SPRITE block")
    ∧ (∀ (st : St) (env fuel : Nat) (v w : Value),
      currentSpriteIdx st.scopes env = none →
      interpStmt (fuel + 1) (.colorData (.literal v) (.literal w)) env st =
        .error "COLORDATA can be used in SPRITE block")
    ∧ (∀ (st : St) (env fuel : Nat) (v : Value),
      currentSpriteIdx st.scopes env = none →
      interpStmt (fuel + 1) (.pixelData (.literal v)) env st =
        .error "PIXELDATA can be used in SPRITE block")
    ∧ (∀ (st : St) (env fuel : Nat) (v : Value),
      currentSongIdx st.scopes env = none →
      interpStmt (fuel + 1) (.bar (.literal v)) env st =
        .error "TypeError: cannot read currentSheet of undefined"
      ∧ interpStmt (fuel + 1) (.gain (.literal v)) env st =
        .error "TypeError: cannot read currentSheet of undefined"
      ∧ interpStmt (fuel + 1) (.bpm (.literal v)) env st =
        .error "TypeError: cannot set bpm of undefined"
      ∧ interpStmt (fuel + 1) (.loop (.literal v)) env st =
        .error "TypeError: cannot set loop of undefined"
      ∧ interpStmt (fuel + 1) (.type (.literal v)) env st =
        .error "TypeError: cannot read currentSheet of undefined")
    ∧ (∀ (st : St) (env fuel k : Nat) (sg : SongObj) (v : Value),
      currentSongIdx st.scopes env = some k →
      st.songs[k]? = some sg → sg.sheets = [] →
      interpStmt (fuel + 1) (.bar (.literal v)) env st = .error "BAR misuse"
      ∧ interpStmt (fuel + 1) (.gain (.literal v)) env st =
        .error "TypeError: cannot set gain of null"
      ∧ interpStmt (fuel + 1) (.type (.literal v)) env st =
        .error "TypeError: cannot set type of null") := by
  refine ⟨?_, ?_, ?_, ?_, ?_⟩
  · intro st env fuel x y h
    simp [interpStmt, h]
  · intro st env fuel v w h
    simp [interpStmt, evalExpr, h, Bind.bind, Except.bind]
  · intro st env fuel v h
    simp [interpStmt, evalExpr, h, Bind.bind, Except.bind]
  · intro st env fuel v h
    refine ⟨?_, ?_, ?_, ?_, ?_⟩ <;>
      simp [interpStmt, evalExpr, h, Bind.bind, Except.bind]
  · intro st env fuel k sg v h hk hsheets
    have hcur : currentSheetOf sg = none := by
      simp [currentSheetOf, hsheets]
    refine ⟨?_, ?_, ?_⟩ <;>
      simp [interpStmt, evalExpr, h, hk, hcur, getSongAt, Bind.bind, Except.bind]

/-- The parser level of each binary operator, lowest binding first
(logical-or, logical-and, equality, comparison, additive,
multiplicative); `0` marks tokens that are not folded binary
operators. -/
def binOpLevel : TokenType → Nat
  | .OR => 1
  | .AND => 2
  | .NOT_EQUAL => 3
  | .EQUAL_EQUAL => 3
  | .GREATER => 4
  | .GREATER_EQUAL => 4
  | .LESS => 4
  | .LESS_EQUAL => 4
  | .MINUS => 5
  | .PLUS => 5
  | .SLASH => 6
  | .STAR => 6
  | _ => 0

/-- The node the parser builds for a binary-level operator: a
`LogicalExpression` for `OR`/`AND`, a `BinaryExpression` otherwise. -/
def mkBinNode (op : TokenType) (l r : Expr) : Expr :=
  if op = .OR ∨ op = .AND then .logical l op r else .binary l op r

/-- A number token (the parser only inspects the type and literal). -/
def numTok (q : ℚ) : Token := ⟨.NUMBER, "", some (.vNum q), 1⟩

/-- An operator token. -/
def opTok (op : TokenType) : Token := ⟨op, "", none, 1⟩

/-- The end-of-input sentinel token. -/
def eofTok : Token := ⟨.EOF, "", none, 1⟩

/-- Enumerate the twelve folded binary operators. -/
theorem binOpLevel_cases (o : TokenType) (h : 1 ≤ binOpLevel o) :
    o = .OR ∨ o = .AND ∨ o = .NOT_EQUAL ∨ o = .EQUAL_EQUAL ∨ o = .GREATER ∨
    o = .GREATER_EQUAL ∨ o = .LESS ∨ o = .LESS_EQUAL ∨ o = .MINUS ∨ o = .PLUS ∨
    o = .SLASH ∨ o = .STAR := by
  cases o <;> simp_all [binOpLevel]

/-- **C1.** Evaluating the parsed program text `1 + 2 * 3` yields 7 and
`(1 + 2) * 3` yields 9 in every environment and state (the literal
operands cannot fail).  In general, for any two folded binary operators
`o1`, `o2` and number atoms, the parser brackets `a o1 b o2 c` with the
higher-precedence operator applied first, and left-nests when the two
operators sit on the same level — every binary level associates to the
left; assignment parses below all of them, and unary minus binds tighter
than the multiplicative level. -/
theorem parser_precedence_and_eval :
    (∀ env st, evalTextExpr "1 + 2 * 3" env st = .ok (.vNum 7, st))
    ∧ (∀ env st, evalTextExpr "(1 + 2) * 3" env st = .ok (.vNum 9, st))
    ∧ (∀ (o1 o2 : TokenType) (a b c : ℚ), 1 ≤ binOpLevel o1 → 1 ≤ binOpLevel o2 →
        pExpression 50 [numTok a, opTok o1, numTok b, opTok o2, numTok c, eofTok] =
          .ok (if binOpLevel o1 < binOpLevel o2
            then mkBinNode o1 (.literal (.vNum a))
              (mkBinNode o2 (.literal (.vNum b)) (.literal (.vNum c)))
            else mkBinNode o2
              (mkBinNode o1 (.literal (.vNum a)) (.literal (.vNum b)))
              (.literal (.vNum c)),
            [eofTok]))
    ∧ (∀ (x : String) (a b : ℚ),
        pExpression 50 [⟨.IDENTIFIER, x, none, 1⟩, opTok .EQUAL, numTok a,
            opTok .PLUS, numTok b, eofTok] =
          .ok (.assign x (.binary (.literal (.vNum a)) .PLUS (.literal (.vNum b))),
            [eofTok]))
    ∧ (∀ (a b : ℚ),
        pExpression 50 [opTok .MINUS, numTok a, opTok .STAR, numTok b, eofTok] =
          .ok (.binary (.unary .MINUS (.literal (.vNum a))) .STAR
            (.literal (.vNum b)), [eofTok])) := by
  refine ⟨fun env st => rfl, fun env st => rfl, ?_, fun x a b => rfl, fun a b => rfl⟩
  intro o1 o2 a b c h1 h2
  rcases binOpLevel_cases o1 h1 with
    rfl | rfl | rfl | rfl | rfl | rfl | rfl | rfl | rfl | rfl | rfl | rfl <;>
  rcases binOpLevel_cases o2 h2 with
    rfl | rfl | rfl | rfl | rfl | rfl | rfl | rfl | rfl | rfl | rfl | rfl <;>
  rfl

/-- Witness for `parser_precedence_and_eval` at a concrete operator
pair. -/
theorem parser_precedence_witness :
    pExpression 50 [numTok 1, opTok .PLUS, numTok 2, opTok .STAR, numTok 3, eofTok] =
      .ok (.binary (.literal (.vNum 1)) .PLUS
        (.binary (.literal (.vNum 2)) .STAR (.literal (.vNum 3))), [eofTok]) := by
  have h := parser_precedence_and_eval.2.2.1 .PLUS .STAR 1 2 3 (by decide) (by decide)
  simpa [binOpLevel, mkBinNode] using h

/-- Witness for `target_statement_misuse_amended` at concrete inputs
(the fresh root state has no sprite and no song; `songNoSheetSt` has a
song without sheets). -/
theorem target_statement_misuse_witness :
    interpStmt 1 (.size (.literal (.vNum 1)) (.literal (.vNum 1))) 0 initialSt =
      .error "SIZE can only be used in SPRITE block"
    ∧ interpStmt 1 (.bpm (.literal (.vNum 100))) 0 initialSt =
      .error "TypeError: cannot set bpm of undefined"
    ∧ interpStmt 1 (.bar (.literal (.vStr "A4"))) 0 songNoSheetSt =
      .error "BAR misuse" :=
  ⟨target_statement_misuse_amended.1 initialSt 0 0 _ _ (by decide),
   (target_statement_misuse_amended.2.2.2.1 initialSt 0 0 _ (by decide)).2.2.1,
   (target_statement_misuse_amended.2.2.2.2 songNoSheetSt 0 0 0 newSong _
     (by decide) (by decide) (by decide)).1⟩

/-- A successful `currentFrame` read means the frame index is a valid
position in `frames`. -/
theorem currentFrameOf_inRange {sp : SpriteObj} {fr : FrameObj}
    (h : currentFrameOf sp = some fr) :
    0 ≤ sp.frameIndex ∧ sp.frameIndex.toNat < sp.frames.length ∧
      sp.frames[sp.frameIndex.toNat]? = some fr := by
  unfold currentFrameOf at h
  by_cases h0 : 0 ≤ sp.frameIndex
  · rw [if_pos h0] at h
    exact ⟨h0, (List.getElem?_eq_some.mp h).1, h⟩
  · rw [if_neg h0] at h
    cases h

/-- Append one pixel row to a frame (the mutation `PIXELDATA` performs on
the current frame). -/
def pushRow (row : String) (fr' : FrameObj) : FrameObj :=
  { fr' with pixelData := fr'.pixelData ++ [Value.vStr row] }

/-- The sprite after `PIXELDATA` pushes `row` onto its current frame. -/
def spriteWithRow (sp : SpriteObj) (row : String) : SpriteObj :=
  { sp with frames := updAt sp.frameIndex.toNat (pushRow row) sp.frames }

/-- **C7.** With an active sprite of declared integer size `w × h` and a
current frame, `PIXELDATA` with a string row fails with the width error
as soon as the row is longer than `w` (leaving the frame untouched — the
raised error aborts the run before the row is pushed), fails with the
height error when a further row would exceed `h`, and a row of exactly
`w` characters appended while fewer than `h` rows exist is pushed onto
the frame's pixel rows, with no other change to the state. -/
theorem pixeldata_bounds (st : St) (env fuel k : Nat) (sp : SpriteObj)
    (w h : ℕ) (fr : FrameObj) (row : String)
    (hcur : currentSpriteIdx st.scopes env = some k)
    (hsp : st.sprites[k]? = some sp)
    (hw : sp.sizeX = some (.vNum w))
    (hh : sp.sizeY = some (.vNum h))
    (hfr : currentFrameOf sp = some fr) :
    (w < row.length →
      interpStmt (fuel + 1) (.pixelData (.literal (.vStr row))) env st =
        .error "PIXELDATA exceeds SPRITE width")
    ∧ (row.length ≤ w → h < fr.pixelData.length + 1 →
      interpStmt (fuel + 1) (.pixelData (.literal (.vStr row))) env st =
        .error "PIXELDATA exceeds SPRITE height")
    ∧ (row.length = w → fr.pixelData.length < h →
      interpStmt (fuel + 1) (.pixelData (.literal (.vStr row))) env st =
        .ok (updSprite st k (fun _ => spriteWithRow sp row))) := by
  obtain ⟨hge, hlt, hat⟩ := currentFrameOf_inRange hfr
  have hbindX : sp.sizeX.bind jsNumberOf = some (w : ℚ) := by
    rw [hw]; rfl
  have hbindY : sp.sizeY.bind jsNumberOf = some (h : ℚ) := by
    rw [hh]; rfl
  have hnotnull : (Value.vStr row = Value.vNull) = False := by simp
  refine ⟨?_, ?_, ?_⟩
  · intro hwide
    have hgt : jsGtNum (jsLenOf (.vStr row)) (sp.sizeX.bind jsNumberOf) = true := by
      rw [hbindX]
      simp only [jsLenOf, jsGtNum, decide_eq_true_eq]
      exact_mod_cast hwide
    simp [interpStmt, evalExpr, Bind.bind, Except.bind, getSpriteAt, hsp, hcur, hgt]
  · intro hnarrow htall
    have hgt : jsGtNum (jsLenOf (.vStr row)) (sp.sizeX.bind jsNumberOf) = false := by
      rw [hbindX]
      simp only [jsLenOf, jsGtNum, decide_eq_false_iff_not, not_lt]
      exact_mod_cast hnarrow
    have hgt2 : jsGtNum (some ((fr.pixelData.length : ℚ) + 1))
        (sp.sizeY.bind jsNumberOf) = true := by
      rw [hbindY]
      simp only [jsGtNum, decide_eq_true_eq]
      have : (h : ℚ) < (fr.pixelData.length : ℚ) + 1 := by exact_mod_cast htall
      exact this
    simp [interpStmt, evalExpr, Bind.bind, Except.bind, getSpriteAt, hsp, hcur,
      hgt, hgt2, hfr]
  · intro hexact hroom
    have hgt : jsGtNum (jsLenOf (.vStr row)) (sp.sizeX.bind jsNumberOf) = false := by
      rw [hbindX]
      simp only [jsLenOf, jsGtNum, decide_eq_false_iff_not, not_lt]
      exact_mod_cast hexact.le
    have hgt2 : jsGtNum (some ((fr.pixelData.length : ℚ) + 1))
        (sp.sizeY.bind jsNumberOf) = false := by
      rw [hbindY]
      simp only [jsGtNum, decide_eq_false_iff_not, not_lt]
      have : (fr.pixelData.length : ℚ) + 1 ≤ (h : ℚ) := by exact_mod_cast hroom
      exact this
    have hupd : (updCurrentFrame sp fun fr' =>
        { fr' with pixelData := fr'.pixelData ++ [Value.vStr row] }) =
          some (spriteWithRow sp row) := by
      unfold updCurrentFrame spriteWithRow pushRow
      rw [if_pos ⟨hge, hlt⟩]
    simp [interpStmt, evalExpr, Bind.bind, Except.bind, getSpriteAt, hsp, hcur,
      hgt, hgt2, hfr, hupd]

/-- A 2×2 sprite, one frame with a single full row already stored. -/
def pixelSprite : SpriteObj :=
  { sizeX := some (.vNum 2), sizeY := some (.vNum 2),
    frames := [{ frameName := .vStr "f", colorData := [],
                 pixelData := [.vStr "RR"] }],
    frameMap := [(.vStr "f", 0)], frameIndex := 0 }

/-- A state whose root scope has `pixelSprite` active. -/
def pixelRootScope : Scope :=
  { newScope none with sprites := [(Value.vStr "sp", 0)], currentSpriteName := Value.vStr "sp" }

/-- See `pixelSpriteSt`. -/
def pixelSpriteSt : St :=
  { initialSt with scopes := [pixelRootScope], sprites := [pixelSprite] }

/-- Witness for `pixeldata_bounds` at concrete inputs: a 3-character row
on a width-2 sprite fails; the exactly fitting second row succeeds. -/
theorem pixeldata_bounds_witness :
    interpStmt 1 (.pixelData (.literal (.vStr "RRR"))) 0 pixelSpriteSt =
      .error "PIXELDATA exceeds SPRITE width"
    ∧ interpStmt 1 (.pixelData (.literal (.vStr "RR"))) 0 pixelSpriteSt =
      .ok (updSprite pixelSpriteSt 0 (fun _ => spriteWithRow pixelSprite "RR")) :=
  ⟨(pixeldata_bounds pixelSpriteSt 0 0 0 pixelSprite 2 2 _ "RRR"
      (by decide) (by decide) rfl rfl rfl).1 (by decide),
   (pixeldata_bounds pixelSpriteSt 0 0 0 pixelSprite 2 2 _ "RR"
      (by decide) (by decide) rfl rfl rfl).2.2 (by decide) (by decide)⟩

/-- The fill call a single pixel produces, if any: `none` both when the
palette character has no entry in the frame's color map and when the
mapped color is falsy (`if (!color) continue`). -/
def pixelEvent (cd : List (Value × Value)) (x y : Value) (i j : Nat) (ch : Char) :
    Option RenderEvent :=
  match mapGet cd (.vStr (String.mk [ch])) with
  | none => none
  | some col =>
    if jsValueTruthy col then
      some (.fillRect (jsAddNum x (4 * j)) (jsAddNum y (4 * i)) (.vNum 4) (.vNum 4) col)
    else none

/-- Specification-side description of the calls one pixel row produces
(columns indexed from `j`). -/
def rowEventsSpec (cd : List (Value × Value)) (x y : Value) (i j : Nat)
    (row : List Char) : List RenderEvent :=
  (row.enumFrom j).filterMap (fun p => pixelEvent cd x y i p.1 p.2)

/-- Specification-side description of the calls a whole frame produces. -/
def frameEventsSpec (fr : FrameObj) (x y : Value) : List RenderEvent :=
  fr.pixelData.enum.flatMap (fun p => rowEventsSpec fr.colorData x y p.1 0 (rowChars p.2))

/-- The context after one truthy-mapped pixel: style set, one call
recorded. -/
def fillPixelCtx (c : CtxObj) (col : Value) (ev : RenderEvent) : CtxObj :=
  { c with fillStyle := col, events := c.events ++ [ev] }

/-- The column loop issues exactly the per-pixel calls of
`rowEventsSpec`, appended in order. -/
theorem drawRow_events (cd : List (Value × Value)) (x y : Value) (i : Nat) :
    ∀ (row : List Char) (j : Nat) (c : CtxObj),
      (drawRow cd x y i j row c).events = c.events ++ rowEventsSpec cd x y i j row := by
  intro row
  induction row with
  | nil => intro j c; simp [drawRow, rowEventsSpec]
  | cons ch rest ih =>
    intro j c
    match hm : mapGet cd (.vStr (String.mk [ch])) with
    | none =>
      have h1 : drawRow cd x y i j (ch :: rest) c = drawRow cd x y i (j + 1) rest c := by
        simp [drawRow, hm]
      have h2 : rowEventsSpec cd x y i j (ch :: rest) =
          rowEventsSpec cd x y i (j + 1) rest := by
        simp [rowEventsSpec, List.enumFrom, pixelEvent, hm]
      rw [h1, ih, h2]
    | some col =>
      by_cases htr : jsValueTruthy col = true
      · have h1 : drawRow cd x y i j (ch :: rest) c =
            drawRow cd x y i (j + 1) rest (fillPixelCtx c col
              (RenderEvent.fillRect (jsAddNum x (4 * j)) (jsAddNum y (4 * i))
                (.vNum 4) (.vNum 4) col)) := by
          simp [drawRow, hm, htr, fillPixelCtx]
        have h2 : rowEventsSpec cd x y i j (ch :: rest) =
            RenderEvent.fillRect (jsAddNum x (4 * j)) (jsAddNum y (4 * i))
              (.vNum 4) (.vNum 4) col :: rowEventsSpec cd x y i (j + 1) rest := by
          simp [rowEventsSpec, List.enumFrom, pixelEvent, hm, htr]
        rw [h1, ih, h2]
        simp [fillPixelCtx]
      · have h1 : drawRow cd x y i j (ch :: rest) c = drawRow cd x y i (j + 1) rest c := by
          simp [drawRow, hm, htr]
        have h2 : rowEventsSpec cd x y i j (ch :: rest) =
            rowEventsSpec cd x y i (j + 1) rest := by
          simp [rowEventsSpec, List.enumFrom, pixelEvent, hm, htr]
        rw [h1, ih, h2]

/-- The row loop issues exactly the calls of `frameEventsSpec`'s rows,
appended in order. -/
theorem drawRows_events (cd : List (Value × Value)) (x y : Value) :
    ∀ (rows : List Value) (i : Nat) (c : CtxObj),
      (drawRows cd x y i rows c).events =
        c.events ++ (rows.enumFrom i).flatMap
          (fun p => rowEventsSpec cd x y p.1 0 (rowChars p.2)) := by
  intro rows
  induction rows with
  | nil => intro i c; simp [drawRows]
  | cons row rest ih =>
    intro i c
    simp only [drawRows, List.enumFrom, List.flatMap_cons]
    rw [ih (i + 1) (drawRow cd x y i 0 (rowChars row) c)]
    rw [drawRow_events]
    simp [List.append_assoc]

/-- The context `DRAW` leaves behind: the pixel loop's calls recorded,
the fill style restored to what it was before the statement. -/
def drawResultCtx (fr : FrameObj) (x y : Value) (c0 : CtxObj) : CtxObj :=
  { drawFramePixels fr x y c0 with fillStyle := c0.fillStyle }

/-- **C10.** A `DRAW` that resolves its sprite and frame completes with
the fill style it started with — the per-pixel fill-style changes are
bracketed by saving and restoring `ctx.fillStyle` — and the rendering
calls it issues are exactly those of the frame's mapped, truthy-colored
pixels: a pixel whose palette character has no entry in the frame's
color map produces no fill call at all. -/
theorem draw_restores_fill_and_skips_unmapped (st : St) (env fuel k : Nat)
    (x y nm fv : Value) (sp : SpriteObj) (fr : FrameObj) (c0 : CtxObj)
    (hsprite : getSpriteIdx st.scopes env nm = .ok k)
    (hsp : st.sprites[k]? = some sp)
    (hfr : resolveFrame sp fv = some fr)
    (hctx : st.ctx = some c0) :
    interpStmt (fuel + 1)
        (.draw (.literal x) (.literal y) (.literal nm) (.literal fv)) env st =
      .ok { st with ctx := some (drawResultCtx fr x y c0) }
    ∧ (drawResultCtx fr x y c0).fillStyle = c0.fillStyle
    ∧ (drawFramePixels fr x y c0).events = c0.events ++ frameEventsSpec fr x y
    ∧ (∀ (cd : List (Value × Value)) (i j : Nat) (ch : Char),
        mapGet cd (.vStr (String.mk [ch])) = none → pixelEvent cd x y i j ch = none) := by
  refine ⟨?_, rfl, ?_, ?_⟩
  · simp [interpStmt, evalExpr, Bind.bind, Except.bind, hsprite, getSpriteAt,
      hsp, hfr, hctx, drawResultCtx]
  · unfold drawFramePixels frameEventsSpec List.enum
    exact drawRows_events fr.colorData x y fr.pixelData 0 c0
  · intro cd i j ch hm
    unfold pixelEvent
    rw [hm]

/-- A one-frame sprite whose frame maps `R` to red and leaves `X`
unmapped, with a single row `RX`. -/
def drawFrame : FrameObj :=
  { frameName := .vStr "f", colorData := [(.vStr "R", .vStr "red")],
    pixelData := [.vStr "RX"] }

/-- See `drawFrame`. -/
def drawSprite : SpriteObj :=
  { sizeX := some (.vNum 2), sizeY := some (.vNum 1), frames := [drawFrame],
    frameMap := [(.vStr "f", 0)], frameIndex := 0 }

/-- See `drawFrame`. -/
def drawRootScope : Scope :=
  { newScope none with sprites := [(Value.vStr "sp", 0)] }

/-- A state holding `drawSprite` and a fresh context. -/
def drawSt : St :=
  { initialSt with scopes := [drawRootScope], sprites := [drawSprite], ctx := some newCtx }

/-- Witness for `draw_restores_fill_and_skips_unmapped` at concrete
inputs: drawing the `RX` frame at the origin issues exactly one red
4×4 fill (the unmapped `X` produces none) and leaves the fill style as
it was. -/
theorem draw_restores_fill_witness :
    interpStmt 1 (.draw (.literal (.vNum 0)) (.literal (.vNum 0))
        (.literal (.vStr "sp")) (.literal (.vNum 0))) 0 drawSt =
      .ok { drawSt with ctx := some (drawResultCtx drawFrame (.vNum 0) (.vNum 0) newCtx) }
    ∧ (drawFramePixels drawFrame (.vNum 0) (.vNum 0) newCtx).events =
        newCtx.events ++ frameEventsSpec drawFrame (.vNum 0) (.vNum 0)
    ∧ frameEventsSpec drawFrame (.vNum 0) (.vNum 0) =
        [.fillRect (.vNum 0) (.vNum 0) (.vNum 4) (.vNum 4) (.vStr "red")] :=
  ⟨(draw_restores_fill_and_skips_unmapped drawSt 0 0 0 (.vNum 0) (.vNum 0)
      (.vStr "sp") (.vNum 0) drawSprite drawFrame newCtx
      (by decide) (by decide) (by decide) (by decide)).1,
   (draw_restores_fill_and_skips_unmapped drawSt 0 0 0 (.vNum 0) (.vNum 0)
      (.vStr "sp") (.vNum 0) drawSprite drawFrame newCtx
      (by decide) (by decide) (by decide) (by decide)).2.2.1,
   by decide⟩

/-! ## C4: undefined variables -/

/-- `mapSet` makes the key readable. -/
theorem mapGet_mapSet_self {α β : Type} [DecidableEq α] (m : List (α × β)) (k : α) (v : β) :
    mapGet (mapSet m k v) k = some v := by
  induction m with
  | nil => simp [mapSet, mapGet]
  | cons p rest ih =>
    obtain ⟨k', v'⟩ := p
    by_cases h : k' = k
    · simp [mapSet, mapGet, h]
    · simp [mapSet, mapGet, h, ih]

/-- Reading through `updAt`. -/
theorem getElem?_updAt {α : Type} (f : α → α) :
    ∀ (l : List α) (i j : Nat),
      (updAt i f l)[j]? = if i = j then (l[j]?).map f else l[j]? := by
  intro l
  induction l with
  | nil => intro i j; simp only [updAt]; split <;> simp
  | cons a as ih =>
    intro i j
    match i, j with
    | 0, 0 => simp [updAt]
    | 0, j + 1 => simp [updAt]
    | i + 1, 0 => simp [updAt]
    | i + 1, j + 1 =>
      simp only [updAt, List.getElem?_cons_succ]
      rw [ih i j]
      simp

/-- The name is bound nowhere on the scope chain starting at `i`
(fuelled walk mirroring `Environment.get`'s). -/
def unboundFuel (scopes : List Scope) : Nat → Nat → String → Bool
  | 0, _, _ => false
  | fuel + 1, i, name =>
    match scopes[i]? with
    | none => false
    | some sc =>
      (mapGet sc.values name).isNone &&
      (match sc.enclosing with
       | some p => unboundFuel scopes fuel p name
       | none => true)

/-- The name is bound nowhere on the scope chain starting at `i`. -/
def unboundChain (scopes : List Scope) (i : Nat) (name : String) : Bool :=
  unboundFuel scopes (i + 1) i name

/-- The chain from `j` reaches `i` without passing a binding of the
name strictly before `i`. -/
def reachesFuel (scopes : List Scope) : Nat → Nat → Nat → String → Bool
  | 0, _, _, _ => false
  | fuel + 1, j, i, name =>
    if j = i then true
    else
      match scopes[j]? with
      | none => false
      | some sc =>
        (mapGet sc.values name).isNone &&
        (match sc.enclosing with
         | some p => reachesFuel scopes fuel p i name
         | none => false)

/-- The chain from `j` reaches `i` without passing a binding of the
name strictly before `i`. -/
def chainPathUnbound (scopes : List Scope) (j i : Nat) (name : String) : Bool :=
  reachesFuel scopes (j + 1) j i name

/-- When the whole chain is walked without finding the name, both the
read and the write walks end at the root with the undefined-variable
error. -/
theorem unbound_walk (scopes : List Scope) (name : String) :
    ∀ (fuel i : Nat), unboundFuel scopes fuel i name = true →
      getVarFuel scopes fuel i name = .error ("Undefined variable: " ++ name)
      ∧ ∀ v, assignVarFuel scopes fuel i name v =
          .error ("Undefined variable: " ++ name) := by
  intro fuel
  induction fuel with
  | zero => intro i h; cases h
  | succ fuel ih =>
    intro i h
    match hsc : scopes[i]? with
    | none => simp only [unboundFuel, hsc] at h; cases h
    | some sc =>
      simp only [unboundFuel, hsc, Bool.and_eq_true, Option.isNone_iff_eq_none] at h
      obtain ⟨h1, h2⟩ := h
      match henc : sc.enclosing with
      | some p =>
        rw [henc] at h2
        exact ⟨by simp only [getVarFuel, hsc, h1, henc]; exact (ih p h2).1,
          fun v => by simp only [assignVarFuel, hsc, h1, henc]; exact (ih p h2).2 v⟩
      | none =>
        exact ⟨by simp only [getVarFuel, hsc, h1, henc],
          fun v => by simp only [assignVarFuel, hsc, h1, henc]⟩

/-- A read launched anywhere below a scope that binds the name, along a
chain with no closer binding, resolves to that binding. -/
theorem reach_resolves (scopes : List Scope) (i : Nat) (name : String) (v : Value)
    (sci : Scope) (hi : scopes[i]? = some sci) (hv : mapGet sci.values name = some v) :
    ∀ (fuel j : Nat), reachesFuel scopes fuel j i name = true →
      getVarFuel scopes fuel j name = .ok v := by
  intro fuel
  induction fuel with
  | zero => intro j h; cases h
  | succ fuel ih =>
    intro j h
    by_cases hji : j = i
    · subst hji
      simp only [getVarFuel, hi, hv]
    · simp only [reachesFuel, hji, if_false] at h
      match hsc : scopes[j]? with
      | none => rw [hsc] at h; cases h
      | some sc =>
        rw [hsc] at h
        simp only [Bool.and_eq_true, Option.isNone_iff_eq_none] at h
        obtain ⟨h1, h2⟩ := h
        match henc : sc.enclosing with
        | some p =>
          rw [henc] at h2
          simp only [getVarFuel, hsc, h1, henc]
          exact ih p h2
        | none => rw [henc] at h2; cases h2

/-- **C4.** A name bound nowhere on the scope chain makes both the read
and the assignment walks fail with the undefined-variable error after
traversing the whole chain; the failing assignment returns no state, so
no binding is created.  After `LET X = v` in scope `env`, reading `X`
from `env` — or from any descendant scope whose chain reaches `env`
without a closer `X` — yields `v`. -/
theorem undefined_variable_errors :
    (∀ (scopes : List Scope) (i : Nat) (name : String),
      unboundChain scopes i name = true →
      getVarScopes scopes i name = .error ("Undefined variable: " ++ name)
      ∧ ∀ v, assignVarScopes scopes i name v =
          .error ("Undefined variable: " ++ name))
    ∧ (∀ (st : St) (env fuel : Nat) (v : Value), env < st.scopes.length →
      interpStmt (fuel + 1) (.letS "X" (some (.literal v))) env st =
        .ok (defineVar st env "X" v)
      ∧ getVarScopes (defineVar st env "X" v).scopes env "X" = .ok v
      ∧ (∀ j, chainPathUnbound (defineVar st env "X" v).scopes j env "X" = true →
          getVarScopes (defineVar st env "X" v).scopes j "X" = .ok v)) := by
  constructor
  · intro scopes i name h
    exact unbound_walk scopes name (i + 1) i h
  · intro st env fuel v henv
    have hsc : ∃ sc, st.scopes[env]? = some sc := by
      rcases h : st.scopes[env]? with _ | sc
      · rw [List.getElem?_eq_none_iff] at h; omega
      · exact ⟨sc, rfl⟩
    obtain ⟨sc, hsc⟩ := hsc
    have hat : (defineVar st env "X" v).scopes[env]? =
        some { sc with values := mapSet sc.values "X" v } := by
      show (updAt env _ st.scopes)[env]? = _
      rw [getElem?_updAt, if_pos rfl, hsc]
      rfl
    have hget : mapGet ({ sc with values := mapSet sc.values "X" v } : Scope).values "X"
        = some v := mapGet_mapSet_self sc.values "X" v
    refine ⟨rfl, ?_, ?_⟩
    · show getVarFuel _ (env + 1) env "X" = .ok v
      simp only [getVarFuel, hat, hget]
    · intro j hpath
      exact reach_resolves _ env "X" v _ hat hget (j + 1) j hpath

/-- Witness for `undefined_variable_errors` at concrete inputs. -/
theorem undefined_variable_witness :
    getVarScopes [newScope none] 0 "Q" = .error "Undefined variable: Q"
    ∧ assignVarScopes [newScope none] 0 "Q" (.vNum 1) =
        .error "Undefined variable: Q"
    ∧ getVarScopes (defineVar initialSt 0 "X" (.vNum 5)).scopes 0 "X" =
        .ok (.vNum 5) :=
  ⟨(undefined_variable_errors.1 [newScope none] 0 "Q" (by decide)).1,
   (undefined_variable_errors.1 [newScope none] 0 "Q" (by decide)).2 (.vNum 1),
   (undefined_variable_errors.2 initialSt 0 0 (.vNum 5) (by decide)).2.1⟩

/-! ## C5: loop scoping

The bound-variable domain of every pre-existing scope other than the one
a statement executes in is invariant under execution: declarations made
inside loop bodies live in the per-iteration child scopes and never leak
into enclosing scopes, while assignments only overwrite existing
bindings. -/

/-- The set (list) of names bound in a scope. -/
def domOf (sc : Scope) : List String := sc.values.map Prod.fst

/-- After-state `b` agrees with before-state `a` on every scope's
domain, with the same number of scopes. -/
abbrev domsEq (a b : St) : Prop :=
  b.scopes.length = a.scopes.length ∧
  ∀ j : Nat, (b.scopes[j]?).map domOf = (a.scopes[j]?).map domOf

/-- After-state `b` preserves the domain of every pre-existing scope of
`a` except possibly `env`, and only adds scopes. -/
abbrev domLe (a b : St) (env : Nat) : Prop :=
  a.scopes.length ≤ b.scopes.length ∧
  ∀ i : Nat, i < a.scopes.length → i ≠ env →
    (b.scopes[i]?).map domOf = (a.scopes[i]?).map domOf

/-- After-state `b` preserves the domain of every pre-existing scope of
`a`, and only adds scopes. -/
abbrev domAll (a b : St) : Prop :=
  a.scopes.length ≤ b.scopes.length ∧
  ∀ i : Nat, i < a.scopes.length →
    (b.scopes[i]?).map domOf = (a.scopes[i]?).map domOf

theorem domsEq_refl (a : St) : domsEq a a := ⟨rfl, fun _ => rfl⟩

theorem domsEq_of_scopes_eq {a b : St} (h : b.scopes = a.scopes) : domsEq a b :=
  ⟨by rw [h], fun j => by rw [h]⟩

theorem domsEq_trans {a b c : St} (h1 : domsEq a b) (h2 : domsEq b c) : domsEq a c :=
  ⟨h2.1.trans h1.1, fun j => (h2.2 j).trans (h1.2 j)⟩

theorem domLe_of_domsEq {a b : St} (h : domsEq a b) (env : Nat) : domLe a b env :=
  ⟨h.1.ge, fun i _ _ => h.2 i⟩

theorem domAll_of_domsEq {a b : St} (h : domsEq a b) : domAll a b :=
  ⟨h.1.ge, fun i _ => h.2 i⟩

theorem domLe_of_domAll {a b : St} (h : domAll a b) (env : Nat) : domLe a b env :=
  ⟨h.1, fun i hi _ => h.2 i hi⟩

theorem domLe_trans {a b c : St} {env : Nat} (h1 : domLe a b env)
    (h2 : domLe b c env) : domLe a c env :=
  ⟨h1.1.trans h2.1, fun i hi hne => (h2.2 i (lt_of_lt_of_le hi h1.1) hne).trans
    (h1.2 i hi hne)⟩

theorem domAll_trans {a b c : St} (h1 : domAll a b) (h2 : domAll b c) : domAll a c :=
  ⟨h1.1.trans h2.1, fun i hi => (h2.2 i (lt_of_lt_of_le hi h1.1)).trans (h1.2 i hi)⟩

theorem domAll_trans_eqL {a b c : St} (h1 : domsEq a b) (h2 : domAll b c) : domAll a c :=
  domAll_trans (domAll_of_domsEq h1) h2

/-- A `domLe` whose exempted scope lies beyond the before-state
preserves every pre-existing domain. -/
theorem domAll_of_domLe_fresh {a b : St} {env : Nat} (h : domLe a b env)
    (hfresh : a.scopes.length ≤ env) : domAll a b :=
  ⟨h.1, fun i hi => h.2 i hi (by omega)⟩

theorem updAt_length {α : Type} (f : α → α) :
    ∀ (l : List α) (i : Nat), (updAt i f l).length = l.length := by
  intro l
  induction l with
  | nil => intro i; cases i <;> rfl
  | cons a as ih =>
    intro i
    match i with
    | 0 => rfl
    | j + 1 => simp [updAt, ih]

/-- Setting a key that is already bound does not change the key list. -/
theorem keys_mapSet_of_mem {α β : Type} [DecidableEq α] (k : α) (v : β) :
    ∀ (m : List (α × β)), (mapGet m k).isSome →
      (mapSet m k v).map Prod.fst = m.map Prod.fst := by
  intro m
  induction m with
  | nil => intro h; simp [mapGet] at h
  | cons p rest ih =>
    intro h
    obtain ⟨k', v'⟩ := p
    by_cases hk : k' = k
    · simp [mapSet, hk]
    · simp only [mapGet, hk, if_false] at h
      simp [mapSet, hk, ih h]

/-- Assignment walks preserve the length and every scope's domain. -/
theorem assign_preserves_doms (scopes : List Scope) (name : String) (v : Value) :
    ∀ (fuel i : Nat) (scopes' : List Scope),
      assignVarFuel scopes fuel i name v = .ok scopes' →
      scopes'.length = scopes.length ∧
      ∀ j : Nat, (scopes'[j]?).map domOf = (scopes[j]?).map domOf := by
  intro fuel
  induction fuel with
  | zero => intro i scopes' h; cases h
  | succ fuel ih =>
    intro i scopes' h
    match hsc : scopes[i]? with
    | none => simp only [assignVarFuel, hsc] at h; cases h
    | some sc =>
      simp only [assignVarFuel, hsc] at h
      match hget : mapGet sc.values name with
      | some w =>
        rw [hget] at h
        cases h
        refine ⟨updAt_length _ _ _, fun j => ?_⟩
        rw [getElem?_updAt]
        by_cases hij : i = j
        · subst hij
          rw [if_pos rfl, hsc]
          simp only [Option.map_map, Option.map_some]
          have : domOf { sc with values := mapSet sc.values name v } = domOf sc := by
            unfold domOf
            exact keys_mapSet_of_mem name v sc.values (by simp [hget])
          simp [this]
        · rw [if_neg hij]
      | none =>
        rw [hget] at h
        match henc : sc.enclosing with
        | some p => rw [henc] at h; exact ih p scopes' h
        | none => rw [henc] at h; cases h

/-- Bind success splits into two successes. -/
theorem bind_ok_iff {α β : Type} {a : Except String α} {f : α → Except String β}
    {b : β} : (a >>= f) = .ok b ↔ ∃ x, a = .ok x ∧ f x = .ok b := by
  cases a <;> simp [Bind.bind, Except.bind]

/-- Expression evaluation preserves the number of scopes and every
scope's bound-name domain: only assignments touch scope variable tables,
and they overwrite existing keys. -/
theorem evalExpr_doms :
    ∀ (e : Expr) (env : Nat) (st : St) (v : Value) (st' : St),
      evalExpr e env st = .ok (v, st') → domsEq st st' := by
  intro e
  induction e with
  | literal w =>
    intro env st v st' h
    cases h
    exact domsEq_refl _
  | grouping e ih =>
    intro env st v st' h
    exact ih env st v st' h
  | unary op r ih =>
    intro env st v st' h
    simp only [evalExpr] at h
    obtain ⟨⟨rv, st1⟩, h1, h2⟩ := bind_ok_iff.mp h
    have hd := ih env st rv st1 h1
    repeat split at h2
    all_goals cases h2
    all_goals exact hd
  | binary l op r ihl ihr =>
    intro env st v st' h
    simp only [evalExpr] at h
    obtain ⟨⟨lv, st1⟩, h1, h2⟩ := bind_ok_iff.mp h
    obtain ⟨⟨rv, st2⟩, h3, h4⟩ := bind_ok_iff.mp h2
    obtain ⟨w, h5, h6⟩ := bind_ok_iff.mp h4
    cases h6
    exact domsEq_trans (ihl env st lv st1 h1) (ihr env st1 rv st2 h3)
  | logical l op r ihl ihr =>
    intro env st v v' h
    simp only [evalExpr] at h
    obtain ⟨⟨lv, st1⟩, h1, h2⟩ := bind_ok_iff.mp h
    dsimp only at h2
    have hd := ihl env st lv st1 h1
    split at h2
    all_goals (try split at h2)
    all_goals first
      | (cases h2; exact hd)
      | exact domsEq_trans hd (ihr env st1 _ _ h2)
  | assign name value ih =>
    intro env st v st' h
    simp only [evalExpr] at h
    obtain ⟨⟨v1, st1⟩, h1, h2⟩ := bind_ok_iff.mp h
    obtain ⟨scopes', h3, h4⟩ := bind_ok_iff.mp h2
    cases h4
    have hd := ih env st v1 st1 h1
    have ha := assign_preserves_doms st1.scopes name v1 (env + 1) env scopes' h3
    exact domsEq_trans hd ⟨ha.1, ha.2⟩
  | var name =>
    intro env st v st' h
    simp only [evalExpr] at h
    obtain ⟨w, h1, h2⟩ := bind_ok_iff.mp h
    cases h2
    exact domsEq_refl _
  | random =>
    intro env st v st' h
    simp only [evalExpr] at h
    split at h <;> cases h <;> exact domsEq_of_scopes_eq rfl
  | input k ih =>
    intro env st v st' h
    simp only [evalExpr] at h
    obtain ⟨⟨kv, st1⟩, h1, h2⟩ := bind_ok_iff.mp h
    have hd := ih env st kv st1 h1
    split at h2 <;> cases h2 <;> exact hd
  | int e ih =>
    intro env st v st' h
    simp only [evalExpr] at h
    obtain ⟨⟨w, st1⟩, h1, h2⟩ := bind_ok_iff.mp h
    have hd := ih env st w st1 h1
    split at h2 <;> cases h2 <;> exact hd
  | min a b iha ihb =>
    intro env st v st' h
    simp only [evalExpr] at h
    obtain ⟨⟨av, st1⟩, h1, h2⟩ := bind_ok_iff.mp h
    obtain ⟨⟨bv, st2⟩, h3, h4⟩ := bind_ok_iff.mp h2
    have hd := domsEq_trans (iha env st av st1 h1) (ihb env st1 bv st2 h3)
    split at h4 <;> cases h4 <;> exact hd
  | max a b iha ihb =>
    intro env st v st' h
    simp only [evalExpr] at h
    obtain ⟨⟨av, st1⟩, h1, h2⟩ := bind_ok_iff.mp h
    obtain ⟨⟨bv, st2⟩, h3, h4⟩ := bind_ok_iff.mp h2
    have hd := domsEq_trans (iha env st av st1 h1) (ihb env st1 bv st2 h3)
    split at h4 <;> cases h4 <;> exact hd
  | abs e ih =>
    intro env st v st' h
    simp only [evalExpr] at h
    obtain ⟨⟨w, st1⟩, h1, h2⟩ := bind_ok_iff.mp h
    have hd := ih env st w st1 h1
    split at h2 <;> cases h2 <;> exact hd
  | floor e ih =>
    intro env st v st' h
    simp only [evalExpr] at h
    obtain ⟨⟨w, st1⟩, h1, h2⟩ := bind_ok_iff.mp h
    have hd := ih env st w st1 h1
    split at h2 <;> cases h2 <;> exact hd
  | ceil e ih =>
    intro env st v st' h
    simp only [evalExpr] at h
    obtain ⟨⟨w, st1⟩, h1, h2⟩ := bind_ok_iff.mp h
    have hd := ih env st w st1 h1
    split at h2 <;> cases h2 <;> exact hd
  | lerp a b t iha ihb iht =>
    intro env st v st' h
    simp only [evalExpr] at h
    obtain ⟨⟨t1, st1⟩, h1, h2⟩ := bind_ok_iff.mp h
    obtain ⟨⟨av, st2⟩, h3, h4⟩ := bind_ok_iff.mp h2
    obtain ⟨⟨t2, st3⟩, h5, h6⟩ := bind_ok_iff.mp h4
    obtain ⟨⟨bv, st4⟩, h7, h8⟩ := bind_ok_iff.mp h6
    have hd := domsEq_trans (domsEq_trans (domsEq_trans
      (iht env st t1 st1 h1) (iha env st1 av st2 h3))
      (iht env st2 t2 st3 h5)) (ihb env st3 bv st4 h7)
    split at h8 <;> cases h8 <;> exact hd
  | mouseX =>
    intro env st v st' h
    cases h
    exact domsEq_refl _
  | mouseY =>
    intro env st v st' h
    cases h
    exact domsEq_refl _

theorem domAll_trans_eqR {a b c : St} (h1 : domAll a b) (h2 : domsEq b c) :
    domAll a c :=
  ⟨by rw [h2.1]; exact h1.1, fun i hi => (h2.2 i).trans (h1.2 i hi)⟩

theorem domLe_trans_eqL {a b c : St} {env : Nat} (h1 : domsEq a b)
    (h2 : domLe b c env) : domLe a c env :=
  domLe_trans (domLe_of_domsEq h1 env) h2

/-- Pushing a child scope preserves every existing scope. -/
theorem pushScope_doms (st : St) (env : Nat) : domAll st (pushScope st env).1 := by
  refine ⟨by simp [pushScope], fun i hi => ?_⟩
  simp only [pushScope]
  rw [List.getElem?_append, if_pos hi]

/-- The child index returned by `pushScope`. -/
theorem pushScope_idx (st : St) (env : Nat) :
    (pushScope st env).2 = st.scopes.length := rfl

/-- Running a block body in the freshly pushed child scope preserves the
domain of every scope that existed before the push. -/
theorem comp_push_body {st st' : St} {env : Nat}
    (hbody : domLe (pushScope st env).1 st' (pushScope st env).2) :
    domAll st st' := by
  obtain ⟨hl, hd⟩ := hbody
  have hpush := pushScope_doms st env
  refine ⟨le_trans hpush.1 hl, fun i hi => ?_⟩
  have hi2 : i < (pushScope st env).1.scopes.length := lt_of_lt_of_le hi hpush.1
  have hne : i ≠ (pushScope st env).2 := by
    rw [pushScope_idx]; omega
  exact (hd i hi2 hne).trans (hpush.2 i hi)

/-- `LET` touches only the scope it executes in. -/
theorem defineVar_domLe (st : St) (env : Nat) (name : String) (v : Value) :
    domLe st (defineVar st env name v) env := by
  refine ⟨by simp [defineVar, updAt_length], fun i hi hne => ?_⟩
  simp only [defineVar]
  rw [getElem?_updAt, if_neg (fun hh => hne hh.symm)]

/-- Rewriting non-variable fields of one scope preserves every domain. -/
theorem updAt_scopes_doms (st : St) (env : Nat) (g : Scope → Scope)
    (hg : ∀ sc, (g sc).values = sc.values) :
    (updAt env g st.scopes).length = st.scopes.length ∧
    ∀ j : Nat, ((updAt env g st.scopes)[j]?).map domOf =
      (st.scopes[j]?).map domOf := by
  refine ⟨updAt_length _ _ _, fun j => ?_⟩
  rw [getElem?_updAt]
  by_cases h : env = j
  · subst h
    rw [if_pos rfl]
    rcases hsc : st.scopes[env]? with _ | sc
    · simp
    · simp [domOf, hg]
  · rw [if_neg h]

theorem addNewSprite_doms (st : St) (env : Nat) (n : Value) :
    domsEq st (addNewSprite st env n) :=
  updAt_scopes_doms st env _ (fun _ => rfl)

theorem resetSprite_doms (st : St) (env : Nat) :
    domsEq st (resetSprite st env) :=
  updAt_scopes_doms st env _ (fun _ => rfl)

theorem addNewSong_doms (st : St) (env : Nat) (n : Value) :
    domsEq st (addNewSong st env n) :=
  updAt_scopes_doms st env _ (fun _ => rfl)

theorem resetSong_doms (st : St) (env : Nat) :
    domsEq st (resetSong st env) :=
  updAt_scopes_doms st env _ (fun _ => rfl)

/-- Statement execution preserves the bound-name domain of every
pre-existing scope other than the one it executes in; a `WHILE` loop —
whose per-iteration bodies run in freshly pushed child scopes — preserves
the domain of every pre-existing scope outright. -/
theorem interp_doms : ∀ fuel : Nat,
    (∀ (s : Stmt) (env : Nat) (st st' : St),
      interpStmt fuel s env st = .ok st' → domLe st st' env)
    ∧ (∀ (l : List Stmt) (env : Nat) (st st' : St),
      interpStmts fuel l env st = .ok st' → domLe st st' env)
    ∧ (∀ (cond : Expr) (body : List Stmt) (env : Nat) (st st' : St),
      whileLoop fuel cond body env st = .ok st' → domAll st st')
    ∧ (∀ (cond : Expr) (inc : Stmt) (body : List Stmt) (env : Nat) (st st' : St),
      forLoop fuel cond inc body env st = .ok st' → domLe st st' env) := by
  intro fuel
  induction fuel with
  | zero =>
    refine ⟨?_, ?_, ?_, ?_⟩
    · intro s env st st' h; cases h
    · intro l env st st' h; cases h
    · intro cond body env st st' h; cases h
    · intro cond inc body env st st' h; cases h
  | succ fuel ih =>
    obtain ⟨ihS, ihL, ihW, ihF⟩ := ih
    refine ⟨?_, ?_, ?_, ?_⟩
    · intro s env st st' h
      match s with
      | .block l =>
        simp only [interpStmt] at h
        exact domLe_of_domAll (comp_push_body (ihL l _ _ _ h)) env
      | .expr e =>
        simp only [interpStmt] at h
        obtain ⟨⟨v, st1⟩, h1, h2⟩ := bind_ok_iff.mp h
        cases h2
        exact domLe_of_domsEq (evalExpr_doms e env st v st1 h1) env
      | .letS name ini =>
        simp only [interpStmt] at h
        match ini with
        | none =>
          cases h
          exact defineVar_domLe st env name .vNull
        | some e =>
          obtain ⟨⟨v, st1⟩, h1, h2⟩ := bind_ok_iff.mp h
          cases h2
          exact domLe_trans_eqL (evalExpr_doms e env st v st1 h1)
            (defineVar_domLe st1 env name v)
      | .debug e =>
        simp only [interpStmt] at h
        obtain ⟨⟨v, st1⟩, h1, h2⟩ := bind_ok_iff.mp h
        cases h2
        exact domLe_of_domsEq (evalExpr_doms e env st v st1 h1) env
      | .print e =>
        simp only [interpStmt] at h
        obtain ⟨⟨v, st1⟩, h1, h2⟩ := bind_ok_iff.mp h
        cases h2
        exact domLe_of_domsEq (evalExpr_doms e env st v st1 h1) env
      | .window w hE =>
        simp only [interpStmt] at h
        obtain ⟨⟨wv, st1⟩, h1, h2⟩ := bind_ok_iff.mp h
        obtain ⟨⟨hv, st2⟩, h3, h4⟩ := bind_ok_iff.mp h2
        cases h4
        exact domLe_of_domsEq (domsEq_trans (evalExpr_doms w env st wv st1 h1)
          (evalExpr_doms hE env st1 hv st2 h3)) env
      | .color ce =>
        simp only [interpStmt] at h
        obtain ⟨⟨cv, st1⟩, h1, h2⟩ := bind_ok_iff.mp h
        split at h2
        · cases h2
        · cases h2
          exact domLe_of_domsEq (evalExpr_doms ce env st cv st1 h1) env
      | .fillAll =>
        simp only [interpStmt] at h
        split at h
        · cases h
        · split at h
          · cases h
          · cases h
            exact domLe_of_domsEq (domsEq_of_scopes_eq rfl) env
      | .fill x y w hE =>
        simp only [interpStmt] at h
        obtain ⟨⟨xv, st1⟩, h1, h2⟩ := bind_ok_iff.mp h
        obtain ⟨⟨yv, st2⟩, h3, h4⟩ := bind_ok_iff.mp h2
        obtain ⟨⟨wv, st3⟩, h5, h6⟩ := bind_ok_iff.mp h4
        obtain ⟨⟨hv, st4⟩, h7, h8⟩ := bind_ok_iff.mp h6
        split at h8
        · cases h8
        · cases h8
          exact domLe_of_domsEq (domsEq_trans (domsEq_trans (domsEq_trans
            (evalExpr_doms x env st xv st1 h1) (evalExpr_doms y env st1 yv st2 h3))
            (evalExpr_doms w env st2 wv st3 h5))
            (evalExpr_doms hE env st3 hv st4 h7)) env
      | .text x y t =>
        simp only [interpStmt] at h
        obtain ⟨⟨xv, st1⟩, h1, h2⟩ := bind_ok_iff.mp h
        obtain ⟨⟨yv, st2⟩, h3, h4⟩ := bind_ok_iff.mp h2
        obtain ⟨⟨tv, st3⟩, h5, h6⟩ := bind_ok_iff.mp h4
        split at h6
        · cases h6
        · cases h6
          exact domLe_of_domsEq (domsEq_trans (domsEq_trans
            (evalExpr_doms x env st xv st1 h1) (evalExpr_doms y env st1 yv st2 h3))
            (evalExpr_doms t env st2 tv st3 h5)) env
      | .sleep d =>
        simp only [interpStmt] at h
        obtain ⟨⟨dv, st1⟩, h1, h2⟩ := bind_ok_iff.mp h
        cases h2
        exact domLe_of_domsEq (evalExpr_doms d env st dv st1 h1) env
      | .size x y =>
        simp only [interpStmt] at h
        split at h
        · cases h
        · obtain ⟨⟨xv, st1⟩, h1, h2⟩ := bind_ok_iff.mp h
          obtain ⟨⟨yv, st2⟩, h3, h4⟩ := bind_ok_iff.mp h2
          cases h4
          exact domLe_of_domsEq (domsEq_trans (evalExpr_doms x env st xv st1 h1)
            (evalExpr_doms y env st1 yv st2 h3)) env
      | .draw x y nm fs =>
        simp only [interpStmt] at h
        obtain ⟨⟨xv, st1⟩, h1, h2⟩ := bind_ok_iff.mp h
        obtain ⟨⟨yv, st2⟩, h3, h4⟩ := bind_ok_iff.mp h2
        obtain ⟨⟨nv, st3⟩, h5, h6⟩ := bind_ok_iff.mp h4
        obtain ⟨⟨fv, st4⟩, h7, h8⟩ := bind_ok_iff.mp h6
        obtain ⟨k, h9, h10⟩ := bind_ok_iff.mp h8
        obtain ⟨sp, h11, h12⟩ := bind_ok_iff.mp h10
        have hd := domsEq_trans (domsEq_trans (domsEq_trans
          (evalExpr_doms x env st xv st1 h1) (evalExpr_doms y env st1 yv st2 h3))
          (evalExpr_doms nm env st2 nv st3 h5))
          (evalExpr_doms fs env st3 fv st4 h7)
        split at h12
        · cases h12
        · split at h12
          · cases h12
          · cases h12
            exact domLe_of_domsEq hd env
      | .colorData che cole =>
        simp only [interpStmt] at h
        obtain ⟨⟨chv, st1⟩, h1, h2⟩ := bind_ok_iff.mp h
        obtain ⟨⟨colv, st2⟩, h3, h4⟩ := bind_ok_iff.mp h2
        have hd := domsEq_trans (evalExpr_doms che env st chv st1 h1)
          (evalExpr_doms cole env st1 colv st2 h3)
        split at h4
        · cases h4
        · obtain ⟨sp, h5, h6⟩ := bind_ok_iff.mp h4
          split at h6
          · cases h6
          · cases h6
            exact domLe_of_domsEq hd env
      | .pixelData de =>
        simp only [interpStmt] at h
        obtain ⟨⟨dv, st1⟩, h1, h2⟩ := bind_ok_iff.mp h
        have hd := evalExpr_doms de env st dv st1 h1
        split at h2
        · cases h2
        · obtain ⟨sp, h3, h4⟩ := bind_ok_iff.mp h2
          split at h4
          · cases h4
          · split at h4
            · cases h4
            · split at h4
              · cases h4
              · split at h4
                · cases h4
                · split at h4
                  · cases h4
                  · cases h4
                    exact domLe_of_domsEq hd env
      | .bar be =>
        simp only [interpStmt] at h
        obtain ⟨⟨bv, st1⟩, h1, h2⟩ := bind_ok_iff.mp h
        have hd := evalExpr_doms be env st bv st1 h1
        split at h2
        · cases h2
        · obtain ⟨sg, h3, h4⟩ := bind_ok_iff.mp h2
          split at h4
          · cases h4
          · cases h4
            exact domLe_of_domsEq hd env
      | .gain ge =>
        simp only [interpStmt] at h
        obtain ⟨⟨gv, st1⟩, h1, h2⟩ := bind_ok_iff.mp h
        have hd := evalExpr_doms ge env st gv st1 h1
        split at h2
        · cases h2
        · obtain ⟨sg, h3, h4⟩ := bind_ok_iff.mp h2
          split at h4
          · cases h4
          · split at h4
            · cases h4
            · cases h4
              exact domLe_of_domsEq hd env
      | .bpm be =>
        simp only [interpStmt] at h
        obtain ⟨⟨bv, st1⟩, h1, h2⟩ := bind_ok_iff.mp h
        have hd := evalExpr_doms be env st bv st1 h1
        split at h2
        · cases h2
        · cases h2
          exact domLe_of_domsEq hd env
      | .loop le =>
        simp only [interpStmt] at h
        obtain ⟨⟨lv, st1⟩, h1, h2⟩ := bind_ok_iff.mp h
        have hd := evalExpr_doms le env st lv st1 h1
        split at h2
        · cases h2
        · cases h2
          exact domLe_of_domsEq hd env
      | .type te =>
        simp only [interpStmt] at h
        obtain ⟨⟨tv, st1⟩, h1, h2⟩ := bind_ok_iff.mp h
        have hd := evalExpr_doms te env st tv st1 h1
        split at h2
        · cases h2
        · obtain ⟨sg, h3, h4⟩ := bind_ok_iff.mp h2
          split at h4
          · cases h4
          · cases h4
            exact domLe_of_domsEq hd env
      | .play ne =>
        simp only [interpStmt] at h
        obtain ⟨⟨nv, st1⟩, h1, h2⟩ := bind_ok_iff.mp h
        obtain ⟨k, h3, h4⟩ := bind_ok_iff.mp h2
        cases h4
        exact domLe_of_domsEq (evalExpr_doms ne env st nv st1 h1) env
      | .stop ne =>
        simp only [interpStmt] at h
        obtain ⟨⟨nv, st1⟩, h1, h2⟩ := bind_ok_iff.mp h
        obtain ⟨k, h3, h4⟩ := bind_ok_iff.mp h2
        cases h4
        exact domLe_of_domsEq (evalExpr_doms ne env st nv st1 h1) env
      | .ifS cond thn els =>
        simp only [interpStmt] at h
        obtain ⟨⟨cv, st1⟩, h1, h2⟩ := bind_ok_iff.mp h
        have hd := evalExpr_doms cond env st cv st1 h1
        split at h2
        · exact domLe_trans_eqL hd (ihL thn env st1 st' h2)
        · exact domLe_trans_eqL hd (ihL els env st1 st' h2)
      | .whileS cond body =>
        simp only [interpStmt] at h
        exact domLe_of_domAll (ihW cond body env st st' h) env
      | .forS ini cond inc body =>
        simp only [interpStmt] at h
        obtain ⟨st1, h1, h2⟩ := bind_ok_iff.mp h
        exact domLe_trans (ihS ini env st st1 h1) (ihF cond inc body env st1 st' h2)
      | .sprite ne body =>
        simp only [interpStmt] at h
        obtain ⟨⟨nv, st1⟩, h1, h2⟩ := bind_ok_iff.mp h
        obtain ⟨st4, h3, h4⟩ := bind_ok_iff.mp h2
        cases h4
        have hd1 := evalExpr_doms ne env st nv st1 h1
        have hd2 := addNewSprite_doms st1 env nv
        have hd3 := comp_push_body (ihL body _ _ _ h3)
        have hd4 := resetSprite_doms st4 env
        exact domLe_of_domAll (domAll_trans_eqR
          (domAll_trans_eqL (domsEq_trans hd1 hd2) hd3) hd4) env
      | .frame ne body =>
        simp only [interpStmt] at h
        split at h
        · cases h
        · match ne with
          | none => cases h
          | some nexp =>
            obtain ⟨⟨nv, st2⟩, h1, h2⟩ := bind_ok_iff.mp h
            obtain ⟨sp, h3, h4⟩ := bind_ok_iff.mp h2
            obtain ⟨sp', h5, h6⟩ := bind_ok_iff.mp h4
            have hdE := evalExpr_doms _ _ _ _ _ h1
            have hd1 : domsEq st st2 := domsEq_trans (domsEq_of_scopes_eq rfl) hdE
            have hd3 := comp_push_body (ihL body _ _ _ h6)
            exact domLe_of_domAll (domAll_trans_eqL
              (domsEq_trans hd1 (domsEq_of_scopes_eq rfl)) hd3) env
      | .song ne body =>
        simp only [interpStmt] at h
        obtain ⟨⟨nv, st1⟩, h1, h2⟩ := bind_ok_iff.mp h
        obtain ⟨st4, h3, h4⟩ := bind_ok_iff.mp h2
        cases h4
        have hd1 := evalExpr_doms ne env st nv st1 h1
        have hd2 := addNewSong_doms st1 env nv
        have hd3 := comp_push_body (ihL body _ _ _ h3)
        have hd4 := resetSong_doms st4 env
        exact domLe_of_domAll (domAll_trans_eqR
          (domAll_trans_eqL (domsEq_trans hd1 hd2) hd3) hd4) env
      | .sheet body =>
        simp only [interpStmt] at h
        split at h
        · cases h
        · have hd3 := comp_push_body (ihL body _ _ _ h)
          exact domLe_of_domAll (domAll_trans_eqL (domsEq_of_scopes_eq rfl) hd3) env
    · intro l env st st' h
      match l with
      | [] =>
        cases h
        exact domLe_of_domsEq (domsEq_refl _) env
      | s :: rest =>
        simp only [interpStmts] at h
        obtain ⟨st1, h1, h2⟩ := bind_ok_iff.mp h
        exact domLe_trans (ihS s env st st1 h1) (ihL rest env st1 st' h2)
    · intro cond body env st st' h
      simp only [whileLoop] at h
      obtain ⟨⟨cv, st1⟩, h1, h2⟩ := bind_ok_iff.mp h
      have hd := evalExpr_doms cond env st cv st1 h1
      split at h2
      · obtain ⟨st3, h3, h4⟩ := bind_ok_iff.mp h2
        have hd2 := comp_push_body (ihL body _ _ _ h3)
        have hd3 := ihW cond body env st3 st' h4
        exact domAll_trans_eqL hd (domAll_trans hd2 hd3)
      · cases h2
        exact domAll_of_domsEq hd
    · intro cond inc body env st st' h
      simp only [forLoop] at h
      obtain ⟨⟨cv, st1⟩, h1, h2⟩ := bind_ok_iff.mp h
      have hd := evalExpr_doms cond env st cv st1 h1
      split at h2
      · obtain ⟨st3, h3, h4⟩ := bind_ok_iff.mp h2
        obtain ⟨st4, h5, h6⟩ := bind_ok_iff.mp h4
        have hd2 := comp_push_body (ihL body _ _ _ h3)
        have hd3 := ihS inc env st3 st4 h5
        have hd4 := ihF cond inc body env st4 st' h6
        exact domLe_trans_eqL hd (domLe_trans (domLe_of_domAll hd2 env)
          (domLe_trans hd3 hd4))
      · cases h2
        exact domLe_of_domsEq hd env

/-- Read a variable from the root scope of a finished run, propagating a
failed run's error. -/
def runVar (r : Except String St) (name : String) : Except String Value :=
  match r with
  | .error e => .error e
  | .ok st => getVarScopes st.scopes 0 name

/-- `LET X = 0  WHILE (X < 2) THEN LET Y = 100  X = X + 1 END`. -/
def whileDemo : List Stmt :=
  [ .letS "X" (some (.literal (.vNum 0))),
    .whileS (.binary (.var "X") .LESS (.literal (.vNum 2)))
      [ .letS "Y" (some (.literal (.vNum 100))),
        .expr (.assign "X" (.binary (.var "X") .PLUS (.literal (.vNum 1)))) ] ]

/-- A loop whose second iteration reads the `Y` that the first iteration
declared: `LET X = 0  LET Z = 0  WHILE (X < 2) THEN IF (X == 1) THEN
Z = Y ELSE LET Y = 7 END  X = X + 1 END`. -/
def noCarryDemo : List Stmt :=
  [ .letS "X" (some (.literal (.vNum 0))),
    .letS "Z" (some (.literal (.vNum 0))),
    .whileS (.binary (.var "X") .LESS (.literal (.vNum 2)))
      [ .ifS (.binary (.var "X") .EQUAL_EQUAL (.literal (.vNum 1)))
          [ .expr (.assign "Z" (.var "Y")) ]
          [ .letS "Y" (some (.literal (.vNum 7))) ],
        .expr (.assign "X" (.binary (.var "X") .PLUS (.literal (.vNum 1)))) ] ]

/-- `FOR (LET I = 0 : I < 2 : I = I + 1) THEN LET Y = 5 END`. -/
def forDemo : List Stmt :=
  [ .forS (.letS "I" (some (.literal (.vNum 0))))
      (.binary (.var "I") .LESS (.literal (.vNum 2)))
      (.expr (.assign "I" (.binary (.var "I") .PLUS (.literal (.vNum 1)))))
      [ .letS "Y" (some (.literal (.vNum 5))) ] ]

/-- **C5.** Loop bodies run in fresh per-iteration child environments:
a finished `WHILE` statement preserves the bound-name domain of every
scope that existed before it (so a `LET` in its body binds nothing in
the loop's environment or any enclosing scope), and a finished `FOR`
statement preserves the domain of every pre-existing scope other than
the loop's own environment (where its header's initializer/increment —
not its body — may bind the loop variable).  Concretely: after
`whileDemo`, `X` — assigned inside the body — is `2` at the root while
the body-declared `Y` is unbound; `noCarryDemo` aborts with an
undefined-variable error because iteration two cannot see the `Y`
declared by iteration one; after `forDemo`, the header-declared `I` is
`2` while the body-declared `Y` is unbound. -/
theorem loop_scoping :
    (∀ (fuel : Nat) (cond : Expr) (body : List Stmt) (env : Nat) (st st' : St),
      interpStmt fuel (.whileS cond body) env st = .ok st' →
      st.scopes.length ≤ st'.scopes.length ∧
      ∀ i : Nat, i < st.scopes.length →
        (st'.scopes[i]?).map domOf = (st.scopes[i]?).map domOf)
    ∧ (∀ (fuel : Nat) (ini : Stmt) (cond : Expr) (inc : Stmt) (body : List Stmt)
        (env : Nat) (st st' : St),
      interpStmt fuel (.forS ini cond inc body) env st = .ok st' →
      st.scopes.length ≤ st'.scopes.length ∧
      ∀ i : Nat, i < st.scopes.length → i ≠ env →
        (st'.scopes[i]?).map domOf = (st.scopes[i]?).map domOf)
    ∧ runVar (interpStmts 100 whileDemo 0 initialSt) "X" = .ok (.vNum 2)
    ∧ runVar (interpStmts 100 whileDemo 0 initialSt) "Y" =
        .error "Undefined variable: Y"
    ∧ interpStmts 100 noCarryDemo 0 initialSt = .error "Undefined variable: Y"
    ∧ runVar (interpStmts 100 forDemo 0 initialSt) "I" = .ok (.vNum 2)
    ∧ runVar (interpStmts 100 forDemo 0 initialSt) "Y" =
        .error "Undefined variable: Y" := by
  refine ⟨?_, ?_, by decide, by decide, by decide, by decide, by decide⟩
  · intro fuel cond body env st st' h
    match fuel with
    | 0 => cases h
    | fuel + 1 =>
      simp only [interpStmt] at h
      exact (interp_doms fuel).2.2.1 cond body env st st' h
  · intro fuel ini cond inc body env st st' h
    match fuel with
    | 0 => cases h
    | fuel + 1 => exact (interp_doms (fuel + 1)).1 _ env st st' h

/-- Witness for `loop_scoping` at a concrete loop. -/
theorem loop_scoping_witness :
    interpStmt 2 (.whileS (.literal (.vBool false)) []) 0 initialSt = .ok initialSt
    ∧ initialSt.scopes.length ≤ initialSt.scopes.length
    ∧ (initialSt.scopes[0]?).map domOf = (initialSt.scopes[0]?).map domOf :=
  ⟨by decide,
   (loop_scoping.1 2 (.literal (.vBool false)) [] 0 initialSt initialSt (by decide)).1,
   (loop_scoping.1 2 (.literal (.vBool false)) [] 0 initialSt initialSt
     (by decide)).2 0 (by decide)⟩

end OneShotModel
